import Mathlib

/-!
Verification development for the HTTP transformation-planning core
(`http/codegen/service_data.go`): a shallow embedding of the attribute/type
data model, the binding resolver (`extractPathParams`, `extractQueryParams`,
`extractHeaders`), the wire-type synthesizer (`buildBodyType`,
`attributeTypeData`), the payload/result builders (`buildPayloadData`,
`buildResultData`, `buildResponseResultInit`), the user-type traversal
(`collectUserTypes`) and the per-primitive path-parameter conversion table
(`pathInitT`), together with theorems settling the specification claims.

External collaborators that live outside the embedded source (the `codegen`
scope helpers, `GoTypeTransform`, `RecursiveValidationCode`, `goTypeDef`,
`design.AttributeExpr.IsPrimitivePointer`) are modelled as explicit function
parameters or, where their behaviour decides a claim, as definitions whose
doc comments start with `Modelled from the spec:`.
-/

namespace GoaHTTP

/-- The primitive kinds of the design language (`design.Primitive`). -/
inductive PrimitiveKind where
  | boolean
  | int
  | int32
  | int64
  | uint
  | uint32
  | uint64
  | float32
  | float64
  | string
  | bytes
  | any
deriving DecidableEq, Repr

/-- Go name of a primitive kind (`design.Primitive.Name()`). -/
def PrimitiveKind.nameStr : PrimitiveKind → String
  | .boolean => "boolean"
  | .int => "int"
  | .int32 => "int32"
  | .int64 => "int64"
  | .uint => "uint"
  | .uint32 => "uint32"
  | .uint64 => "uint64"
  | .float32 => "float32"
  | .float64 => "float64"
  | .string => "string"
  | .bytes => "bytes"
  | .any => "any"

mutual
/-- `design.DataType`: Empty, primitives, arrays, maps, objects and user
types.  `design.Empty` is compared by pointer identity in the source
(`dt == design.Empty`), so it is its own constructor here.  A user type
carries its identity (`ID()`) and its name (`Name()`); its attribute is
resolved through a registry (see `UTEnv`), which is what lets the embedding
represent the self-referential type graphs the source must traverse. -/
inductive DataType where
  | empty : DataType
  | primitive (k : PrimitiveKind) : DataType
  | array (elem : AttributeExpr) : DataType
  | mapT (key elem : AttributeExpr) : DataType
  | object (fields : List NamedAttribute) : DataType
  | userType (id nm : String) : DataType

/-- `design.AttributeExpr`: a type plus the metadata the embedded functions
read — the `Validation.Required` name list, whether `DefaultValue` /
`Validation` are non-nil (their contents are design-time constants that the
planner only copies around, so only their presence is modelled), the
description, and the `Metadata["origin:attribute"]` entry. -/
inductive AttributeExpr where
  | mk (typ : DataType) (required : List String) (hasDefault hasValidation : Bool)
      (description : String) (origin : Option String) : AttributeExpr

/-- One named field of a `design.Object`. -/
inductive NamedAttribute where
  | mk (name : String) (attr : AttributeExpr) : NamedAttribute
end

def AttributeExpr.typ : AttributeExpr → DataType
  | .mk t _ _ _ _ _ => t

def AttributeExpr.required : AttributeExpr → List String
  | .mk _ r _ _ _ _ => r

def AttributeExpr.hasDefault : AttributeExpr → Bool
  | .mk _ _ d _ _ _ => d

def AttributeExpr.hasValidation : AttributeExpr → Bool
  | .mk _ _ _ v _ _ => v

def AttributeExpr.description : AttributeExpr → String
  | .mk _ _ _ _ d _ => d

def AttributeExpr.origin : AttributeExpr → Option String
  | .mk _ _ _ _ _ o => o

def NamedAttribute.name : NamedAttribute → String
  | .mk n _ => n

def NamedAttribute.attr : NamedAttribute → AttributeExpr
  | .mk _ a => a

/-- A plain attribute wrapping a type, with no metadata
(`&design.AttributeExpr{Type: t}` in the source). -/
def attrOf (t : DataType) : AttributeExpr :=
  .mk t [] false false "" none

/-- The user-type registry: identity to attribute.  In the source the
attribute is reached through the `ut.Attribute()` pointer; the registry form
is what lets the embedding represent cyclic references. -/
abbrev UTEnv := List (String × AttributeExpr)

def lookupUT : UTEnv → String → Option AttributeExpr
  | [], _ => none
  | (n, a) :: rest, id => if n = id then some a else lookupUT rest id

/-- `design.Object.Attribute(name)`: first field with the given name. -/
def findField : List NamedAttribute → String → Option AttributeExpr
  | [], _ => none
  | .mk n a :: rest, nm => if n = nm then some a else findField rest nm

/-- `design.AsObject`: resolve a type to its underlying object, following
user-type references through the registry.  Go recurses through pointers;
here the recursion is fuelled by the registry size, which bounds every
non-cyclic user-type chain (a truly cyclic chain of user-type aliases would
make the Go original loop, and yields `none` here). -/
def resolveToObject (reg : UTEnv) : Nat → DataType → Option (List NamedAttribute)
  | _, .object fs => some fs
  | fuel + 1, .userType id _ =>
    match lookupUT reg id with
    | some a => resolveToObject reg fuel a.typ
    | none => none
  | _, _ => none

def asObjectD (reg : UTEnv) (t : DataType) : Option (List NamedAttribute) :=
  resolveToObject reg (reg.length + 1) t

/-- `design.IsObject`. -/
def isObjectD (reg : UTEnv) (t : DataType) : Bool :=
  (asObjectD reg t).isSome

/-- `design.AsArray`, fuelled like `asObjectD`. -/
def resolveToArray (reg : UTEnv) : Nat → DataType → Option AttributeExpr
  | _, .array e => some e
  | fuel + 1, .userType id _ =>
    match lookupUT reg id with
    | some a => resolveToArray reg fuel a.typ
    | none => none
  | _, _ => none

def asArrayD (reg : UTEnv) (t : DataType) : Option AttributeExpr :=
  resolveToArray reg (reg.length + 1) t

def isArrayD (reg : UTEnv) (t : DataType) : Bool :=
  (asArrayD reg t).isSome

/-- `design.AsMap`, fuelled like `asObjectD`. -/
def resolveToMap (reg : UTEnv) : Nat → DataType → Option (AttributeExpr × AttributeExpr)
  | _, .mapT k e => some (k, e)
  | fuel + 1, .userType id _ =>
    match lookupUT reg id with
    | some a => resolveToMap reg fuel a.typ
    | none => none
  | _, _ => none

def asMapD (reg : UTEnv) (t : DataType) : Option (AttributeExpr × AttributeExpr) :=
  resolveToMap reg (reg.length + 1) t

def isMapD (reg : UTEnv) (t : DataType) : Bool :=
  (asMapD reg t).isSome

/-- `design.DataType.Name()` as far as the embedded code consults it (the
path-constructor template dispatches on it, and `buildBodyType` copies it). -/
def dtName : DataType → String
  | .empty => "empty"
  | .primitive k => k.nameStr
  | .array _ => "array"
  | .mapT _ _ => "map"
  | .object _ => "object"
  | .userType _ nm => nm

/-- Identity of a user type (`ut.ID()`), used as dedup key. -/
def dtID : DataType → String
  | .userType id _ => id
  | t => dtName t

/-- `AttributeExpr.IsRequired(name)`: membership in `Validation.Required`. -/
def AttributeExpr.isRequired (a : AttributeExpr) (nm : String) : Bool :=
  a.required.contains nm

/-- `AttributeExpr.Find(name)` restricted to what the embedded callers use:
look the field up in the underlying object. -/
def AttributeExpr.findAttr (reg : UTEnv) (a : AttributeExpr) (nm : String) :
    Option AttributeExpr :=
  match asObjectD reg a.typ with
  | some fields => findField fields nm
  | none => none

mutual
/-- `needConversion` (service_data.go): true if the type needs to be
converted from a string.  Primitives of kind string/any/bytes need none;
arrays and maps recurse; the `default` arm of the Go type switch (objects,
user types) yields true. -/
def needConversion : DataType → Bool
  | .empty => false
  | .primitive k =>
    if k = .string || k = .any || k = .bytes then false else true
  | .array e => needConversionA e
  | .mapT k e => needConversionA k || needConversionA e
  | .object _ => true
  | .userType _ _ => true

def needConversionA : AttributeExpr → Bool
  | .mk t _ _ _ _ _ => needConversion t
end

mutual
/-- `needInit` (service_data.go): true iff the given type is or makes use of
user types.  Empty and primitives never do; arrays, maps and objects
recurse; user types always do. -/
def needInit : DataType → Bool
  | .empty => false
  | .primitive _ => false
  | .array e => needInitA e
  | .mapT k e => needInitA k || needInitA e
  | .object fields => needInitFields fields
  | .userType _ _ => true

def needInitA : AttributeExpr → Bool
  | .mk t _ _ _ _ _ => needInit t

def needInitFields : List NamedAttribute → Bool
  | [] => false
  | .mk _ a :: rest => needInitA a || needInitFields rest
end

mutual
/-- Spec-side predicate for claim C3, written from the claim's words: the
type closure contains at least one UserType node. -/
def hasUserType : DataType → Bool
  | .empty => false
  | .primitive _ => false
  | .array e => hasUserTypeA e
  | .mapT k e => hasUserTypeA k || hasUserTypeA e
  | .object fields => hasUserTypeFields fields
  | .userType _ _ => true

def hasUserTypeA : AttributeExpr → Bool
  | .mk t _ _ _ _ _ => hasUserType t

def hasUserTypeFields : List NamedAttribute → Bool
  | [] => false
  | .mk _ a :: rest => hasUserTypeA a || hasUserTypeFields rest
end

mutual
/-- Spec-side predicate for claim C4: the closure is built only from Empty,
string/bytes/any primitives, arrays and maps — exactly the types for which
no string conversion is needed. -/
def stringLike : DataType → Bool
  | .empty => true
  | .primitive k => k = .string || k = .bytes || k = .any
  | .array e => stringLikeA e
  | .mapT k e => stringLikeA k && stringLikeA e
  | .object _ => false
  | .userType _ _ => false

def stringLikeA : AttributeExpr → Bool
  | .mk t _ _ _ _ _ => stringLike t
end

/-- Nullable primitive kinds: every primitive kind except bytes and any,
whose Go representations (`[]byte`, `interface` value) are already nilable
and are therefore never put behind a pointer. -/
def isPointerKind (k : PrimitiveKind) : Bool :=
  !(k = .bytes) && !(k = .any)

/-- Modelled from the spec: `design.AttributeExpr.IsPrimitivePointer(name,
useDefault)` is not under src/ (only its callers are).  Per spec section 4.3 a
field can be "possibly absent" only when it is not required and, when
defaults are considered, has no default; bytes/any are already nilable. -/
def isPrimitivePointerAttr (reg : UTEnv) (a : AttributeExpr) (attName : String)
    (useDefault : Bool) : Bool :=
  match a.findAttr reg attName with
  | some child =>
    match child.typ with
    | .primitive k =>
      isPointerKind k && !(a.isRequired attName) && (!useDefault || !child.hasDefault)
    | _ => false
  | none => false

/-- Modelled from the spec: `goTypeDef(scope, att, ptr, useDefault)` is not
under src/.  Its contract is stated by the comment inside `buildBodyType`
("when generating types that are used to unmarshal use pointer fields
regardless of whether the attribute is required or has a default value") and
by the `RequestData.ServerBody` / `ResponseData.ClientBody` doc comments
("the type is generated using pointers for all fields so that it can be
validated"): with `ptr` set every nullable primitive field is a pointer;
otherwise a field is a pointer exactly when `IsPrimitivePointer` says so.
Object- and user-typed fields are rendered behind a struct pointer. -/
def goTypeDefFieldPointer (reg : UTEnv) (ptrFlag useDefault : Bool)
    (parent : AttributeExpr) (fieldName : String) : Bool :=
  match parent.findAttr reg fieldName with
  | some child =>
    match child.typ with
    | .primitive k =>
      (ptrFlag && isPointerKind k) || isPrimitivePointerAttr reg parent fieldName useDefault
    | .object _ => true
    | .userType _ _ => true
    | _ => false
  | none => false

/-- The `marshaled` flag computed by `buildBodyType`: set only when the type
is generated for the client side of a request. -/
def buildBodyTypeMarshaled (svr req : Bool) : Bool :=
  !svr && req

/-- Field optionality of the body type produced by `buildBodyType` for a
user-type body: the source calls `goTypeDef(scope, ut.Attribute(),
!marshaled, marshaled)`. -/
def buildBodyTypeFieldPointer (reg : UTEnv) (svr req : Bool)
    (parent : AttributeExpr) (fieldName : String) : Bool :=
  goTypeDefFieldPointer reg (!buildBodyTypeMarshaled svr req)
    (buildBodyTypeMarshaled svr req) parent fieldName

/-- The `useDefault` flag computed by `attributeTypeData`: defaults are
considered for a response server side or a request client side. -/
def attributeTypeDataUseDefault (req server : Bool) : Bool :=
  (!req && server) || (req && !server)

/-- Field optionality of the nested body attribute types produced by
`attributeTypeData`: the source calls `goTypeDef(scope, ut.Attribute(), ptr,
useDefault)`. -/
def attributeTypeDataFieldPointer (reg : UTEnv) (req ptrFlag server : Bool)
    (parent : AttributeExpr) (fieldName : String) : Bool :=
  goTypeDefFieldPointer reg ptrFlag (attributeTypeDataUseDefault req server)
    parent fieldName

/-- Claim C1 as stated: in the two decoding contexts (server decoding a
request: `svr ∧ req`; client decoding a response: `¬svr ∧ ¬req`) a required
field with no default is non-pointer and an optional field with no default is
a pointer, while in the two encoding contexts every field is non-pointer. -/
def claimC1Statement : Prop :=
  ∀ (reg : UTEnv) (parent child : AttributeExpr) (fname : String) (k : PrimitiveKind),
    parent.findAttr reg fname = some child →
    child.typ = .primitive k →
    isPointerKind k = true →
    (∀ svr req : Bool,
      ((svr = true ∧ req = true) ∨ (svr = false ∧ req = false)) →
        (parent.isRequired fname = true → child.hasDefault = false →
          buildBodyTypeFieldPointer reg svr req parent fname = false) ∧
        (parent.isRequired fname = false → child.hasDefault = false →
          buildBodyTypeFieldPointer reg svr req parent fname = true)) ∧
    (∀ svr req : Bool,
      ((svr = true ∧ req = false) ∨ (svr = false ∧ req = true)) →
        buildBodyTypeFieldPointer reg svr req parent fname = false)

/-- `ParamData` (service_data.go): the fields read or written by the
embedded functions.  `DefaultValue`/`Example` hold design-time constants the
planner only copies, so only default presence is kept; `Map` is spelled
`isMap`. -/
structure ParamData where
  name : String := ""
  attributeName : String := ""
  description : String := ""
  fieldName : String := ""
  varName : String := ""
  serviceField : Bool := false
  typ : DataType := .empty
  typeName : String := ""
  typeRef : String := ""
  required : Bool := false
  pointer : Bool := false
  stringSlice : Bool := false
  slice : Bool := false
  mapStringSlice : Bool := false
  isMap : Bool := false
  validate : String := ""
  hasDefault : Bool := false
  mapQueryParams : Option String := none

/-- `HeaderData` (service_data.go). -/
structure HeaderData where
  name : String := ""
  attributeName : String := ""
  description : String := ""
  canonicalName : String := ""
  fieldName : String := ""
  varName : String := ""
  typeName : String := ""
  typeRef : String := ""
  required : Bool := false
  pointer : Bool := false
  slice : Bool := false
  stringSlice : Bool := false
  typ : DataType := .empty
  validate : String := ""
  hasDefault : Bool := false

/-- `InitArgData` (service_data.go); `Example` is kept as a string. -/
structure InitArgData where
  name : String := ""
  description : String := ""
  ref : String := ""
  fieldName : String := ""
  typeName : String := ""
  typeRef : String := ""
  pointer : Bool := false
  required : Bool := false
  hasDefault : Bool := false
  validate : String := ""
  exampleVal : String := ""

/-- `InitData` (service_data.go). -/
structure InitData where
  name : String := ""
  description : String := ""
  serverArgs : List InitArgData := []
  clientArgs : List InitArgData := []
  cliArgs : List InitArgData := []
  returnTypeName : String := ""
  returnTypeRef : String := ""
  returnTypeAttribute : String := ""
  returnIsStruct : Bool := false
  returnIsPrimitivePointer : Bool := false
  serverCode : String := ""
  clientCode : String := ""

/-- `TypeData` (service_data.go); `Def` is spelled `defCode`. -/
structure TypeData where
  name : String := ""
  varName : String := ""
  description : String := ""
  init : Option InitData := none
  defCode : String := ""
  ref : String := ""
  validateDef : String := ""
  validateRef : String := ""
  exampleVal : String := ""

/-- The `mustValidate` computation of `buildPayloadData` (the three loops
over path parameters, query parameters and headers; path parameters do not
test `Required`). -/
def requestMustValidate (paths queries : List ParamData)
    (headers : List HeaderData) : Bool :=
  paths.any (fun p => p.validate != "" || needConversion p.typ) ||
    queries.any (fun q => q.validate != "" || q.required || needConversion q.typ) ||
    headers.any (fun h => h.validate != "" || h.required || needConversion h.typ)

/-- The `mustValidate` computation of `buildResultData` (headers only). -/
def responseMustValidate (headers : List HeaderData) : Bool :=
  headers.any (fun h => h.validate != "" || h.required || needConversion h.typ)

/-- The external code-generation collaborators (`codegen.Goify`,
`NameScope.Unique/GoTypeName/GoTypeRef/...`, `RecursiveValidationCode`,
`http.CanonicalHeaderKey`, `http.StatusText`) are outside the embedded
source; they only produce identifier/description strings, so they are
carried as an explicit environment of string-valued functions.  The
statefulness of the name scope (`Unique` deduplicates across calls) is
elided: `unique` is a pure function, which no claim depends on. -/
structure CodegenEnv where
  goify : String → Bool → String := fun s _ => s
  unique : String → String := fun s => s
  goTypeName : AttributeExpr → String := fun _ => ""
  goTypeRef : AttributeExpr → String := fun _ => ""
  goFullTypeName : AttributeExpr → String → String := fun _ _ => ""
  goFullTypeRef : AttributeExpr → String → String := fun _ _ => ""
  goTypeDefStr : AttributeExpr → Bool → Bool → String := fun _ _ _ => ""
  rvc : AttributeExpr → Bool → Bool → Bool → String → String := fun _ _ _ _ _ => ""
  exampleOf : AttributeExpr → String := fun _ => ""
  hashedUnique : DataType → String → String := fun _ s => s
  canonicalHeaderKey : String → String := fun s => s
  statusText : Nat → String := fun _ => ""
  statusConst : Nat → String := fun _ => ""

/-- One step of `codegen.WalkMappedAttr`: the walk hands the attribute name,
the wire element name, the required flag and the attribute to the callback;
the embedded extract functions take the walk sequence as a list. -/
structure MappedParam where
  name : String := ""
  elem : String := ""
  required : Bool := false
  attr : AttributeExpr := attrOf .empty

/-- Element-type test used for the `StringSlice` flags
(`arr.ElemType.Type.Kind() == design.StringKind`). -/
def elemIsStringKind : Option AttributeExpr → Bool
  | some e =>
    match e.typ with
    | .primitive .string => true
    | _ => false
  | none => false

/-- The `MapStringSlice` test of `extractQueryParams`. -/
def mapStringSliceCheck : Option (AttributeExpr × AttributeExpr) → Bool
  | some (k, e) =>
    (match k.typ with
      | .primitive .string => true
      | _ => false) &&
      (match e.typ with
        | .array inner =>
          match inner.typ with
          | .primitive .string => true
          | _ => false
        | _ => false)
  | none => false

/-- `extractPathParams` (service_data.go): every produced `ParamData` has
`Pointer: false`; `Map`/`MapStringSlice` are always false for path
parameters; validation code is generated with required semantics. -/
def extractPathParams (reg : UTEnv) (env : CodegenEnv) (walk : List MappedParam)
    (serviceType : AttributeExpr) : List ParamData :=
  walk.map fun m =>
    let varn := env.unique (env.goify m.name false)
    let arr := asArrayD reg m.attr.typ
    let fieldName := if isObjectD reg serviceType.typ then env.goify m.name true else ""
    { name := m.elem
      attributeName := m.name
      description := m.attr.description
      fieldName := fieldName
      varName := varn
      required := m.required
      typ := m.attr.typ
      typeName := env.goTypeName m.attr
      typeRef := env.goTypeRef m.attr
      pointer := false
      slice := arr.isSome
      stringSlice := elemIsStringKind arr
      isMap := false
      mapStringSlice := false
      validate := env.rvc m.attr true false false varn
      hasDefault := m.attr.hasDefault }

/-- `extractQueryParams` (service_data.go); `aAttr` is the mapped attribute
expression whose `IsPrimitivePointer(name, true)` decides pointerness. -/
def extractQueryParams (reg : UTEnv) (env : CodegenEnv) (aAttr : AttributeExpr)
    (walk : List MappedParam) (serviceType : AttributeExpr) : List ParamData :=
  walk.map fun m =>
    let varn := env.unique (env.goify m.name false)
    let arr := asArrayD reg m.attr.typ
    let mp := asMapD reg m.attr.typ
    let ptr := isPrimitivePointerAttr reg aAttr m.name true
    let typeRef0 := env.goTypeRef m.attr
    let fieldName := if isObjectD reg serviceType.typ then env.goify m.name true else ""
    { name := m.elem
      attributeName := m.name
      description := m.attr.description
      fieldName := fieldName
      varName := varn
      required := m.required
      typ := m.attr.typ
      typeName := env.goTypeName m.attr
      typeRef := if ptr then "*" ++ typeRef0 else typeRef0
      pointer := ptr
      slice := arr.isSome
      stringSlice := elemIsStringKind arr
      isMap := mp.isSome
      mapStringSlice := mapStringSliceCheck mp
      validate := env.rvc m.attr m.required false m.attr.hasDefault varn
      hasDefault := m.attr.hasDefault }

/-- `extractHeaders` (service_data.go): the walk over the mapped header
object; when the service type is an object the header attribute, required
flag, field name and pointerness come from it, otherwise the service type
itself is the header attribute and the header is required. -/
def extractHeaders (reg : UTEnv) (env : CodegenEnv) (walk : List MappedParam)
    (serviceType : AttributeExpr) (req : Bool) : List HeaderData :=
  walk.map fun m =>
    let varn := env.unique (env.goify m.name false)
    let isObj := isObjectD reg serviceType.typ
    let hattr := if isObj then (serviceType.findAttr reg m.name).getD (attrOf .empty)
      else serviceType
    let required := if isObj then serviceType.isRequired m.name else true
    let fieldName := if isObj then env.goify m.name true else ""
    let ptr := if isObj then isPrimitivePointerAttr reg serviceType m.name req else false
    let arr := asArrayD reg hattr.typ
    let typeRef0 := env.goTypeRef hattr
    { name := m.elem
      attributeName := m.name
      description := hattr.description
      canonicalName := env.canonicalHeaderKey m.elem
      fieldName := fieldName
      varName := varn
      typeName := env.goTypeName hattr
      typeRef := if ptr then "*" ++ typeRef0 else typeRef0
      required := required
      pointer := ptr
      slice := arr.isSome
      stringSlice := elemIsStringKind arr
      typ := hattr.typ
      validate := env.rvc hattr required false hattr.hasDefault varn
      hasDefault := hattr.hasDefault }

/-- The path-constructor argument construction inside `analyze`
(service_data.go, the route loop): every wildcard argument is built with
`Required: true`; pointerness comes from `a.Params.IsPrimitivePointer(arg,
false)`; validation code is generated only when the attribute carries a
validation. -/
def buildPathInitArgs (reg : UTEnv) (env : CodegenEnv) (wildcards : List String)
    (pathParamsObj : List NamedAttribute) (paramsAttr : AttributeExpr) :
    List InitArgData :=
  wildcards.map fun arg =>
    let att := (findField pathParamsObj arg).getD (attrOf .empty)
    let nm := env.unique (env.goify arg false)
    let ptr := isPrimitivePointerAttr reg paramsAttr arg false
    let vcode := if att.hasValidation then env.rvc att true false false nm else ""
    { name := nm
      description := att.description
      ref := nm
      fieldName := env.goify arg true
      typeName := env.goTypeName att
      typeRef := env.goTypeRef att
      pointer := ptr
      required := true
      validate := vcode
      exampleVal := env.exampleOf att }

/-- Go runtime values flowing through a generated path constructor.  IEEE-754
floats are outside the embedding (see `goFormatFloat`). -/
inductive GoVal where
  | vInt (n : Int)
  | vUint (n : Nat)
  | vStr (s : String)
  | vBool (b : Bool)
  | vArr (elems : List GoVal)

/-- `fmt.Sprintf("%v", x)` for the scalar values the generated constructors
pass positionally: integers in base 10, strings verbatim, booleans as
true/false.  (A whole array value is never handed to `%v`: the template
routes arrays through the join branch.) -/
def fmtV : GoVal → String
  | .vInt n => toString n
  | .vUint n => toString n
  | .vStr s => s
  | .vBool b => if b then "true" else "false"
  | .vArr _ => ""

def asStr : GoVal → String
  | .vStr s => s
  | _ => ""

def asInt : GoVal → Int
  | .vInt n => n
  | _ => 0

def asUint : GoVal → Nat
  | .vUint n => n
  | _ => 0

def asBool : GoVal → Bool
  | .vBool b => b
  | _ => false

def asArrElems : GoVal → List GoVal
  | .vArr l => l
  | _ => []

def hexDigitU (n : Nat) : Char :=
  if n < 10 then Char.ofNat (48 + n) else Char.ofNat (55 + n)

/-- One character of `url.QueryEscape`: ASCII alphanumerics and `-_.~` are
kept, space becomes `+`, everything else `%XX` with upper-case hex.  (Go
escapes each UTF-8 byte; the model covers the ASCII range the route
templates use.) -/
def queryEscapeChar (c : Char) : List Char :=
  if c.isAlphanum || c = '-' || c = '_' || c = '.' || c = '~' then [c]
  else if c = ' ' then ['+']
  else ['%', hexDigitU (c.toNat / 16 % 16), hexDigitU (c.toNat % 16)]

/-- `url.QueryEscape`. -/
def queryEscape (s : String) : String :=
  ⟨(s.data.map queryEscapeChar).flatten⟩

/-- `strconv.FormatFloat(v, 'f', -1, 32/64)`: IEEE-754 formatting is not
representable in this embedding; the float rows of the conversion table are
kept but their value formatting is left blank. -/
def goFormatFloat : GoVal → String
  | _ => ""

/-- The `slice_conversion` table of the `pathInitT` template: element-wise
string conversion for array path parameters, dispatching on the element
type name exactly as the template does. -/
def sliceConversion (elemTypeName : String) (v : GoVal) : String :=
  if elemTypeName = "string" then queryEscape (asStr v)
  else if elemTypeName = "int" || elemTypeName = "int32" then toString (asInt v)
  else if elemTypeName = "int64" then toString (asInt v)
  else if elemTypeName = "uint" || elemTypeName = "uint32" then toString (asUint v)
  else if elemTypeName = "uint64" then toString (asUint v)
  else if elemTypeName = "float32" || elemTypeName = "float64" then goFormatFloat v
  else if elemTypeName = "boolean" then (if asBool v then "true" else "false")
  else if elemTypeName = "bytes" then queryEscape (asStr v)
  else queryEscape (fmtV v)

/-- One positional parameter of a generated path constructor: the design
type of the corresponding path attribute and the runtime value. -/
structure PathArg where
  typ : DataType
  val : GoVal

/-- Rendering of one argument before substitution: array-typed parameters
are converted element-wise and joined with the fixed separator `", "`
(`strings.Join(slice, ", ")` in the template); every other parameter is
passed to `%v` directly. -/
def renderPathArg (a : PathArg) : String :=
  match a.typ with
  | .array elem =>
    String.intercalate ", " ((asArrElems a.val).map (sliceConversion (dtName elem.typ)))
  | _ => fmtV a.val

/-- Left-to-right substitution of `%v` verbs by pre-rendered strings
(`fmt.Sprintf` on the `%v`-only formats the template produces). -/
def substVChars : List Char → List String → List Char
  | '%' :: 'v' :: rest, a :: args => a.data ++ substVChars rest args
  | c :: rest, args => c :: substVChars rest args
  | [], _ => []

def sprintfV (format : String) (args : List String) : String :=
  ⟨substVChars format.data args⟩

/-- The runtime behaviour of a path constructor generated by `pathInitT`:
with no arguments the generated function returns the format string literal
(`return "{{PathFormat}}"`); otherwise it returns
`fmt.Sprintf(format, renderedArgs...)`. -/
def pathInitRun (format : String) (args : List PathArg) : String :=
  match args with
  | [] => format
  | _ :: _ => sprintfV format (args.map renderPathArg)

/-- `dt == design.Empty` as the source writes it. -/
def isEmptyD : DataType → Bool
  | .empty => true
  | _ => false

/-- Modelled from the spec: `codegen.GoTypeTransform` is not under src/
(only its callers are).  Per spec section 4.4 it compiles a conversion plan
between a source and a target attribute tree and fails with a
`TransformError` determined by the two shapes; the variable-name, package
and pointer-mode arguments only affect the rendered text and are elided, so
the server- and client-side calls on the same type pair share one outcome.
On success it returns the transform code and the transform helper
functions it requires. -/
abbrev GoTypeTransformFn := DataType → DataType → Except String (String × List String)

def transformCode (r : Except String (String × List String)) : String :=
  match r with
  | .ok (c, _) => c
  | .error _ => ""

def transformHelpers (r : Except String (String × List String)) : List String :=
  match r with
  | .ok (_, hs) => hs
  | .error _ => []

/-- The diagnostic print (`fmt.Println(err.Error())`): the error message, if
any, appended to the diagnostic stream. -/
def transformDiag (r : Except String (String × List String)) : List String :=
  match r with
  | .ok _ => []
  | .error e => [e]

/-- Result of `buildBodyType`: the optional `TypeData` plus the transform
helpers the source appends to `sd.ServerTransformHelpers` /
`sd.ClientTransformHelpers` and the diagnostics it prints. -/
structure BodyTypeResult where
  data : Option TypeData := none
  serverHelpers : List String := []
  clientHelpers : List String := []
  diags : List String := []

/-- The constructor block of `buildBodyType` (the `init` computation): runs
only when generating the encoding side (`svr && !req || !svr && req`), the
payload/result attribute is not Empty and the body needs initialization.
The transform source is the origin attribute when the design used
`Body("name")`.  A transform error is printed and the constructor is still
produced with empty code. -/
def buildBodyTypeInit (reg : UTEnv) (env : CodegenEnv) (gt : GoTypeTransformFn)
    (eName svcName pkg : String) (body att : AttributeExpr) (req svr viewed : Bool)
    (validateDef : String) : Option InitData × List String × List String :=
  if ((svr && !req) || (!svr && req)) && !isEmptyD att.typ && needInit body.typ then
    let iname := "New" ++ env.goify (env.goTypeName body) true
    let ctx := if req then "request" else "response"
    let rctx := if req then "payload" else "result"
    let sourceVar := if req then "p" else "res"
    let idesc := iname ++ " builds the HTTP " ++ ctx ++ " body from the " ++ rctx ++
      " of the " ++ eName ++ " endpoint of the " ++ svcName ++ " service."
    let step : DataType × String × String :=
      match body.origin with
      | some o =>
        let oAttr := ((asObjectD reg att.typ).bind (fun fs => findField fs o)).getD (attrOf .empty)
        (oAttr.typ, sourceVar ++ "." ++ env.goify o true, o)
      | none => (att.typ, sourceVar, "")
    let srcType := step.1
    let origin := step.2.2
    let trans := gt srcType body.typ
    let code := transformCode trans
    let helpers := transformHelpers trans
    let ref := if viewed then sourceVar ++ ".Projected" else sourceVar
    let arg : InitArgData :=
      { name := sourceVar, ref := ref, typeRef := env.goFullTypeRef att pkg,
        validate := validateDef, exampleVal := env.exampleOf att }
    let base : InitData :=
      { name := iname, description := idesc, returnTypeRef := env.goTypeRef body,
        returnTypeAttribute := env.goify origin true }
    let init := if svr then { base with serverCode := code, serverArgs := [arg] }
      else { base with clientCode := code, clientArgs := [arg] }
    (some init, helpers, transformDiag trans)
  else (none, [], [])

/-- `buildBodyType` (service_data.go): returns no descriptor iff the body
type is Empty; otherwise synthesizes the `TypeData` for one of the four
(request/response × server/client) contexts.  `marshaled = !svr && req` is
set only for the client side of a request; unmarshaled types use pointer
fields and carry validation definitions.  (The `sd.ServerTypeNames` /
`sd.ClientTypeNames` bookkeeping maps are elided: they only deduplicate
rendered declarations.) -/
def buildBodyType (reg : UTEnv) (env : CodegenEnv) (gt : GoTypeTransformFn)
    (eName svcName pkg : String) (body att : AttributeExpr) (req svr viewed : Bool) :
    BodyTypeResult :=
  if isEmptyD body.typ then {}
  else
    let marshaled := !svr && req
    let name := dtName body.typ
    let ref := env.goTypeRef body
    let descParts : String × String × String × String × String :=
      match body.typ with
      | .userType id nm =>
        let varname := env.goify nm true
        let utAttr := (lookupUT reg id).getD (attrOf .empty)
        let defCode := env.goTypeDefStr utAttr (!marshaled) marshaled
        let ctx := if req then "request" else "response"
        let tdesc := varname ++ " is the type of the " ++ svcName ++ " service " ++
          eName ++ " endpoint HTTP " ++ ctx ++ " body."
        let vdef := if (svr && req) || (!svr && !req && !viewed) then
            env.rvc body true (!marshaled) marshaled "body"
          else ""
        let vref := if vdef != "" then "err = body.Validate()" else ""
        (varname, defCode, tdesc, vdef, vref)
      | _ =>
        (env.goTypeRef body, "", body.description, "",
          env.rvc body true (!marshaled) marshaled "body")
    let varname := descParts.1
    let defCode := descParts.2.1
    let tdesc := descParts.2.2.1
    let validateDef := descParts.2.2.2.1
    let validateRef := descParts.2.2.2.2
    let initRes := buildBodyTypeInit reg env gt eName svcName pkg body att req svr viewed validateDef
    let td : TypeData :=
      { name := name, varName := varname, description := tdesc, init := initRes.1,
        defCode := defCode, ref := ref, validateDef := validateDef,
        validateRef := validateRef, exampleVal := env.exampleOf body }
    { data := some td,
      serverHelpers := if svr then initRes.2.1 else [],
      clientHelpers := if !svr then initRes.2.1 else [],
      diags := initRes.2.2 }

/-- A response definition (`httpdesign.HTTPResponseExpr`) as the builders
read it: status code, description, the `Tag` pair, the body attribute and
the walk over the mapped response headers. -/
structure RespDef where
  statusCode : Nat := 200
  description : String := ""
  tag0 : String := ""
  tag1 : String := ""
  body : AttributeExpr := attrOf .empty
  headers : List MappedParam := []

/-- The method-level inputs of the result builders (`service.MethodData`
and the viewed-result projection). -/
structure MethodModel where
  mdName : String := ""
  mdResultName : String := ""
  viewedProjected : Option AttributeExpr := none

/-- `buildResponseResultInit` (service_data.go): builds the constructor that
transforms a client response into the method result.  The transform source
is the response body (or, with `Body("name")`, the designated result
attribute); on a transform error the error is printed and the constructor is
still returned with empty code.  Returns the `InitData`, the client
transform helpers and the printed diagnostics. -/
def buildResponseResultInit (reg : UTEnv) (env : CodegenEnv) (gt : GoTypeTransformFn)
    (svcName pkgName viewsPkg : String) (md : MethodModel)
    (methodResult : AttributeExpr) (eName : String)
    (queryParamsObj : List NamedAttribute) (resp : RespDef) :
    InitData × List String × List String :=
  let rp : AttributeExpr × String :=
    match md.viewedProjected with
    | some proj => (proj, viewsPkg)
    | none => (methodResult, pkgName)
  let result := rp.1
  let pkg := rp.2
  let main : String × Bool × List InitArgData × String × List String × List String :=
    if !isEmptyD resp.body.typ then
      let ob : String × Bool × AttributeExpr :=
        match resp.body.origin with
        | some o => (o, isPrimitivePointerAttr reg result o true,
            (result.findAttr reg o).getD (attrOf .empty))
        | none => ("", false, result)
      let origin := ob.1
      let respBody := ob.2.2
      let isObj := isObjectD reg resp.body.typ
      let ref := if isObj then "&body" else "body"
      let pointer := if isObj then false else ob.2.1
      let vcode :=
        match resp.body.typ with
        | .userType id _ =>
          let ua := (lookupUT reg id).getD (attrOf .empty)
          if ua.hasValidation then env.rvc ua true false false "body" else ""
        | _ => ""
      let bodyArg : InitArgData :=
        { name := "body", ref := ref, typeRef := env.goTypeRef (attrOf resp.body.typ),
          validate := vcode }
      let trans := gt resp.body.typ respBody.typ
      (origin, pointer, [bodyArg], transformCode trans, transformHelpers trans,
        transformDiag trans)
    else if isArrayD reg result.typ || isMapD reg result.typ then
      match queryParamsObj with
      | first :: _ =>
        let trans := gt first.attr.typ result.typ
        ("", false, [], transformCode trans, transformHelpers trans, transformDiag trans)
      | [] => ("", false, [], "", [], [])
    else ("", false, [], "", [], [])
  let origin := main.1
  let pointer := main.2.1
  let bodyArgs := main.2.2.1
  let code := main.2.2.2.1
  let helpers := main.2.2.2.2.1
  let diags := main.2.2.2.2.2
  let headerArgs := (extractHeaders reg env resp.headers result false).map fun h =>
    ({ name := h.varName
       ref := h.varName
       fieldName := h.fieldName
       typeRef := h.typeRef
       validate := h.validate
       exampleVal := "" } : InitArgData)
  let clientArgs := bodyArgs ++ headerArgs
  let status := env.goify (env.statusText resp.statusCode) true
  let n := env.goify md.mdName true
  let r0 := env.goify md.mdResultName true
  let name := if r0.startsWith n then
      "New" ++ env.hashedUnique result.typ r0 ++ status
    else "New" ++ n ++ r0 ++ status
  let init : InitData :=
    { name := name,
      description := name ++ " builds a " ++ svcName ++ " service " ++ eName ++
        " endpoint result from a HTTP " ++ status ++ " response.",
      clientArgs := clientArgs,
      returnTypeName := env.goFullTypeName result pkg,
      returnTypeRef := env.goFullTypeRef result pkg,
      returnIsStruct := isObjectD reg result.typ,
      returnTypeAttribute := env.goify origin true,
      returnIsPrimitivePointer := pointer,
      clientCode := code }
  (init, helpers, diags)

/-- `RequestData` (service_data.go). -/
structure RequestData where
  pathParams : List ParamData := []
  queryParams : List ParamData := []
  headers : List HeaderData := []
  serverBody : Option TypeData := none
  clientBody : Option TypeData := none
  payloadInit : Option InitData := none
  mustValidate : Bool := false

/-- `PayloadData` (service_data.go). -/
structure PayloadData where
  name : String := ""
  ref : String := ""
  request : RequestData := {}
  decoderReturnValue : String := ""

/-- A security scheme (`service.SchemeData`) as the basic-auth CLI-argument
block reads it. -/
structure SchemeModel where
  stype : String := ""
  sin : String := ""
  schemeName : String := ""
  usernameAttr : String := ""
  usernameField : String := ""
  usernameRequired : Bool := false
  usernamePointer : Bool := false
  passwordAttr : String := ""
  passwordField : String := ""
  passwordRequired : Bool := false
  passwordPointer : Bool := false

def findBasicInReq : List SchemeModel → Option SchemeModel
  | [] => none
  | s :: rest => if s.stype = "Basic" then some s else findBasicInReq rest

def findBasicScheme : List (List SchemeModel) → Option SchemeModel
  | [] => none
  | r :: rest =>
    match findBasicInReq r with
    | some s => some s
    | none => findBasicScheme rest

/-- The basic-auth CLI-argument block of `buildPayloadData`: the first Basic
scheme of the method requirements yields the username/password arguments.
(The password argument's validation code is generated from the username
attribute, exactly as the source does.) -/
def buildBasicAuthCLIArgs (reg : UTEnv) (env : CodegenEnv)
    (requirements : List (List SchemeModel)) (payload : AttributeExpr) :
    List InitArgData :=
  match findBasicScheme requirements with
  | some sc =>
    let uatt := (payload.findAttr reg sc.usernameAttr).getD (attrOf .empty)
    let patt := (payload.findAttr reg sc.passwordAttr).getD (attrOf .empty)
    [{ name := sc.usernameAttr, fieldName := sc.usernameField,
        description := uatt.description, ref := sc.usernameAttr,
        required := sc.usernameRequired, typeName := env.goTypeName uatt,
        typeRef := env.goTypeRef uatt, pointer := sc.usernamePointer,
        validate := env.rvc uatt true false false sc.usernameAttr,
        exampleVal := env.exampleOf uatt },
      { name := sc.passwordAttr, fieldName := sc.passwordField,
        description := patt.description, ref := sc.passwordAttr,
        required := sc.passwordRequired, typeName := env.goTypeName patt,
        typeRef := env.goTypeRef patt, pointer := sc.passwordPointer,
        validate := env.rvc uatt true false false sc.passwordAttr,
        exampleVal := env.exampleOf patt }]
  | none => []

/-- The endpoint-level inputs of `buildPayloadData`. -/
structure PayloadEndpointModel where
  eName : String := ""
  bodyAttr : AttributeExpr := attrOf .empty
  payload : AttributeExpr := attrOf .empty
  pathWalk : List MappedParam := []
  queryWalk : List MappedParam := []
  queryAttr : AttributeExpr := attrOf .empty
  headerWalk : List MappedParam := []
  mapQueryParams : Option String := none
  paramsObj : List NamedAttribute := []
  paramsAttr : AttributeExpr := attrOf .empty
  headersObj : List NamedAttribute := []
  epName : String := ""
  epPayloadName : String := ""
  requirements : List (List SchemeModel) := []

/-- Result of `buildPayloadData`: the `PayloadData` plus the transform
helpers and the printed diagnostics. -/
structure PayloadBuildResult where
  data : PayloadData := {}
  serverHelpers : List String := []
  clientHelpers : List String := []
  diags : List String := []

/-- The `mapQueryParam` construction of `buildPayloadData` (the
`e.MapQueryParams` block): the whole payload (empty name) or one designated
attribute is carried as a single query-parameter map. -/
def buildMapQueryParam (reg : UTEnv) (env : CodegenEnv) (payload : AttributeExpr)
    (n : String) (mqp : Option String) : ParamData :=
  let core : String × String × Bool × AttributeExpr :=
    if n != "" then
      ((env.goify n true), n, payload.isRequired n,
        (payload.findAttr reg n).getD (attrOf .empty))
    else ("", "query", false, payload)
  let fieldName := core.1
  let nameQ := core.2.1
  let required := core.2.2.1
  let pAtt := core.2.2.2
  let varn := env.goify nameQ false
  { name := nameQ, varName := varn, fieldName := fieldName, required := required,
    typ := pAtt.typ, typeName := env.goTypeName pAtt, typeRef := env.goTypeRef pAtt,
    isMap := isMapD reg payload.typ,
    validate := env.rvc payload required false false varn,
    hasDefault := pAtt.hasDefault, mapQueryParams := mqp }

/-- The transform block of `buildPayloadData`'s constructor: two
`GoTypeTransform` calls (server then client) on the body and the
(origin-adjusted) payload type, or on the first parameter for array/map
payloads; helpers are kept only on success; the error variable holds the
last call's error and is printed once.  Returns (serverCode, clientCode,
serverHelpers, clientHelpers, diags, origin). -/
def payloadTransformBlock (reg : UTEnv) (env : CodegenEnv) (gt : GoTypeTransformFn)
    (e : PayloadEndpointModel) :
    String × String × List String × List String × List String × String :=
  let payload := e.payload
  let body := e.bodyAttr.typ
  if !isEmptyD body then
    let po : DataType × String :=
      match e.bodyAttr.origin with
      | some o =>
        ((((asObjectD reg payload.typ).bind (fun fs => findField fs o)).getD
          (attrOf .empty)).typ, o)
      | none => (payload.typ, "")
    let ptype := po.1
    let origin := po.2
    let sRes := gt body ptype
    let cRes := gt body ptype
    (transformCode sRes, transformCode cRes, transformHelpers sRes,
      transformHelpers cRes, transformDiag cRes, origin)
  else if isArrayD reg payload.typ || isMapD reg payload.typ then
    match e.paramsObj with
    | first :: _ =>
      let sRes := gt first.attr.typ payload.typ
      let cRes := gt first.attr.typ payload.typ
      (transformCode sRes, transformCode cRes, transformHelpers sRes,
        transformHelpers cRes, transformDiag cRes, "")
    | [] => ("", "", [], [], [], "")
  else ("", "", [], [], [], "")

/-- The constructor block of `buildPayloadData` (`if needInit(payload.Type)`):
assembles the payload constructor arguments (body, path, query, header,
basic-auth CLI) and the transform codes.  Path-parameter arguments get the
special pointer flag for non-pointer path params assigned to pointer
fields. -/
def buildPayloadInit (reg : UTEnv) (env : CodegenEnv) (gt : GoTypeTransformFn)
    (svcName pkgName : String) (e : PayloadEndpointModel)
    (paramsData queryData : List ParamData) (headersData : List HeaderData) :
    Option InitData × List String × List String × List String :=
  if needInit e.payload.typ then
    let payload := e.payload
    let body := e.bodyAttr.typ
    let n := env.goify e.epName true
    let p0 := env.goify e.epPayloadName true
    let name := if p0.startsWith n then "New" ++ env.hashedUnique payload.typ p0
      else "New" ++ n ++ p0
    let desc := name ++ " builds a " ++ svcName ++ " service " ++ e.eName ++
      " endpoint payload."
    let bodyArgs : List InitArgData × List InitArgData :=
      if !isEmptyD body then
        let ref := if isObjectD reg body then "&body" else "body"
        let vcodes : String × String :=
          match body with
          | .userType id _ =>
            let ua := (lookupUT reg id).getD (attrOf .empty)
            if ua.hasValidation then
              (env.rvc ua true false false "body", env.rvc ua true false true "body")
            else ("", "")
          | _ => ("", "")
        let mk := fun (v : String) =>
          ({ name := "body"
             ref := ref
             typeName := env.goTypeName (attrOf body)
             typeRef := env.goTypeRef (attrOf body)
             required := true
             exampleVal := env.exampleOf e.bodyAttr
             validate := v } : InitArgData)
        ([mk vcodes.1], [mk vcodes.2])
      else ([], [])
    let pathArgs := paramsData.map fun p =>
      ({ name := p.varName
         description := p.description
         ref := p.varName
         fieldName := p.fieldName
         typeName := p.typeName
         typeRef := p.typeRef
         pointer := !p.required && !p.pointer && isPrimitivePointerAttr reg payload p.name true
         required := p.required
         validate := p.validate
         exampleVal := "" } : InitArgData)
    let queryArgs := queryData.map fun p =>
      ({ name := p.varName
         ref := p.varName
         fieldName := p.fieldName
         typeName := p.typeName
         typeRef := p.typeRef
         required := p.required
         hasDefault := p.hasDefault
         validate := p.validate
         exampleVal := "" } : InitArgData)
    let headerArgs := headersData.map fun h =>
      ({ name := h.varName
         ref := h.varName
         fieldName := h.fieldName
         typeName := h.typeName
         typeRef := h.typeRef
         required := h.required
         hasDefault := h.hasDefault
         validate := h.validate
         exampleVal := "" } : InitArgData)
    let args := pathArgs ++ queryArgs ++ headerArgs
    let serverArgs := bodyArgs.1 ++ args
    let clientArgs := bodyArgs.2 ++ args
    let cliArgs := buildBasicAuthCLIArgs reg env e.requirements payload
    let tr := payloadTransformBlock reg env gt e
    let init : InitData :=
      { name := name
        description := desc
        serverArgs := serverArgs
        clientArgs := clientArgs
        cliArgs := cliArgs
        returnTypeName := env.goFullTypeName payload pkgName
        returnTypeRef := env.goFullTypeRef payload pkgName
        returnIsStruct := isObjectD reg payload.typ
        returnTypeAttribute := env.goify tr.2.2.2.2.2 true
        serverCode := tr.1
        clientCode := tr.2.1 }
    (some init, tr.2.2.1, tr.2.2.2.1, tr.2.2.2.2.1)
  else (none, [], [], [])

/-- `buildPayloadData` (service_data.go): assembles the request data (path,
query and header bindings, server/client body types, `MustValidate`), the
payload constructor when one is needed, and the decoder return value for
constructor-less payloads.  Diagnostics printed by the body builders and the
transform block are aggregated in order. -/
def buildPayloadData (reg : UTEnv) (env : CodegenEnv) (gt : GoTypeTransformFn)
    (svcName pkgName : String) (e : PayloadEndpointModel) : PayloadBuildResult :=
  let payload := e.payload
  let serverBodyRes := buildBodyType reg env gt e.eName svcName pkgName e.bodyAttr payload true true false
  let clientBodyRes := buildBodyType reg env gt e.eName svcName pkgName e.bodyAttr payload true false false
  let paramsData := extractPathParams reg env e.pathWalk payload
  let queryData0 := extractQueryParams reg env e.queryAttr e.queryWalk payload
  let headersData := extractHeaders reg env e.headerWalk payload true
  let qm : List ParamData × Option ParamData :=
    match e.mapQueryParams with
    | some nm =>
      let mqp := buildMapQueryParam reg env payload nm e.mapQueryParams
      (queryData0 ++ [mqp], some mqp)
    | none => (queryData0, none)
  let queryData := qm.1
  let mapQueryParam := qm.2
  let mustValidate := requestMustValidate paramsData queryData headersData
  let initRes := buildPayloadInit reg env gt svcName pkgName e paramsData queryData headersData
  let request : RequestData :=
    { pathParams := paramsData, queryParams := queryData, headers := headersData,
      serverBody := serverBodyRes.data, clientBody := clientBodyRes.data,
      payloadInit := initRes.1, mustValidate := mustValidate }
  let nr : String × String :=
    if !isEmptyD payload.typ then
      (env.goFullTypeName payload pkgName, env.goFullTypeRef payload pkgName)
    else ("", "")
  let returnValue :=
    if initRes.1.isSome then ""
    else match e.paramsObj with
      | f :: _ => env.goify f.name false
      | [] =>
        match e.headersObj with
        | f :: _ => env.goify f.name false
        | [] =>
          if e.mapQueryParams = some "" then
            match mapQueryParam with
            | some m => m.name
            | none => ""
          else ""
  let pd : PayloadData :=
    { name := nr.1, ref := nr.2, request := request, decoderReturnValue := returnValue }
  { data := pd
    serverHelpers := serverBodyRes.serverHelpers ++ clientBodyRes.serverHelpers ++ initRes.2.1
    clientHelpers := serverBodyRes.clientHelpers ++ clientBodyRes.clientHelpers ++ initRes.2.2.1
    diags := serverBodyRes.diags ++ clientBodyRes.diags ++ initRes.2.2.2 }

/-- The transform target type used by `buildPayloadData`'s constructor: the
payload type, or the origin attribute's type under `Body("name")`. -/
def payloadTransformTargetType (reg : UTEnv) (e : PayloadEndpointModel) : DataType :=
  match e.bodyAttr.origin with
  | some o =>
    ((((asObjectD reg e.payload.typ).bind (fun fs => findField fs o)).getD
      (attrOf .empty)).typ)
  | none => e.payload.typ

/-- The transform target type used by `buildResponseResultInit`: the
(possibly projected) result type, or its origin attribute's type under
`Body("name")`. -/
def respBodyTargetType (reg : UTEnv) (md : MethodModel)
    (methodResult : AttributeExpr) (resp : RespDef) : DataType :=
  let result :=
    match md.viewedProjected with
    | some proj => proj
    | none => methodResult
  match resp.body.origin with
  | some o => ((result.findAttr reg o).getD (attrOf .empty)).typ
  | none => result.typ

/-- The transform source type used by `buildBodyType`'s constructor block:
the payload/result attribute type, or its origin attribute's type under
`Body("name")`. -/
def bodyInitSrcType (reg : UTEnv) (body att : AttributeExpr) : DataType :=
  match body.origin with
  | some o =>
    (((asObjectD reg att.typ).bind (fun fs => findField fs o)).getD (attrOf .empty)).typ
  | none => att.typ

/-- `ResponseData` (service_data.go). -/
structure ResponseData where
  statusCode : String := ""
  description : String := ""
  headers : List HeaderData := []
  errorHeader : String := ""
  serverBody : Option TypeData := none
  clientBody : Option TypeData := none
  resultInit : Option InitData := none
  tagName : String := ""
  tagValue : String := ""
  tagRequired : Bool := false
  mustValidate : Bool := false
  resultAttr : String := ""
  viewedResult : Bool := false

/-- `ResultData` (service_data.go); `Inits` is not populated by
`buildResultData` itself. -/
structure ResultData where
  name : String := ""
  ref : String := ""
  isStruct : Bool := false
  inits : List InitData := []
  responses : List ResponseData := []
  view : String := "default"

/-- The response construction inside `buildResultData`'s loop body: one
`ResponseData` built from one response definition (with the viewed-result
projection applied), together with the transform helpers and printed
diagnostics of the constructors it builds. -/
def mkResponseData (reg : UTEnv) (env : CodegenEnv) (gt : GoTypeTransformFn)
    (svcName pkgName viewsPkg eName : String) (md : MethodModel)
    (methodResult : AttributeExpr) (qObj : List NamedAttribute) (v : RespDef) :
    ResponseData × List String × List String × List String :=
  let rp : AttributeExpr × String × Bool :=
    match md.viewedProjected with
    | some proj => (proj, viewsPkg, true)
    | none => (methodResult, pkgName, false)
  let result := rp.1
  let pkg := rp.2.1
  let viewed := rp.2.2
  let origin := (v.body.origin).getD ""
  let initRes :=
    if needInit result.typ then
      some (buildResponseResultInit reg env gt svcName pkgName viewsPkg md
        methodResult eName qObj v)
    else none
  let headersData := extractHeaders reg env v.headers result false
  let serverBodyRes := buildBodyType reg env gt eName svcName pkg v.body result false true viewed
  let clientBodyRes := buildBodyType reg env gt eName svcName pkg v.body result false false viewed
  let mustValidate := responseMustValidate headersData
  let rd : ResponseData :=
    { statusCode := env.statusConst v.statusCode
      description := v.description
      headers := headersData
      serverBody := serverBodyRes.data
      clientBody := clientBodyRes.data
      resultInit := initRes.map (fun t => t.1)
      tagName := env.goify v.tag0 true
      tagValue := v.tag1
      tagRequired := result.isRequired v.tag0 && !viewed
      mustValidate := mustValidate
      resultAttr := env.goify origin true
      viewedResult := viewed }
  (rd, serverBodyRes.serverHelpers ++ clientBodyRes.serverHelpers,
    (match initRes with | some t => t.2.1 | none => []) ++
      serverBodyRes.clientHelpers ++ clientBodyRes.clientHelpers,
    (match initRes with | some t => t.2.2 | none => []) ++
      serverBodyRes.diags ++ clientBodyRes.diags)

/-- The response loop of `buildResultData`: iterate the response definitions
with their input index `i`; a definition with an empty tag is kept only if
no earlier tagless definition was seen (`notag` remembers its input index,
`-1` meaning none); every kept definition is turned into a response by the
loop body `C`. -/
def respLoopData {α : Type} (C : RespDef → α) :
    List RespDef → Nat → Int → List α × Int
  | [], _, notag => ([], notag)
  | v :: rest, i, notag =>
    if v.tag0 = "" then
      if notag > -1 then respLoopData C rest (i + 1) notag
      else
        let r := respLoopData C rest (i + 1) (Int.ofNat i)
        (C v :: r.1, r.2)
    else
      let r := respLoopData C rest (i + 1) notag
      (C v :: r.1, r.2)

/-- The slice swap `responses[notag], responses[count-1] =
responses[count-1], responses[notag]`. -/
def listSwap {α : Type} (l : List α) (a b : Nat) : List α :=
  match l[a]?, l[b]? with
  | some x, some y => (l.set a y).set b x
  | _, _ => l

/-- The full response-list construction of `buildResultData`: run the loop,
then make sure the tagless response is last. -/
def buildResponsesFor {α : Type} (C : RespDef → α) (defs : List RespDef) : List α :=
  let r := respLoopData C defs 0 (-1)
  let responses := r.1
  let notag := r.2
  let count := responses.length
  if 0 ≤ notag ∧ notag < (count : Int) - 1 then
    listSwap responses notag.toNat (count - 1)
  else responses

/-- The response definitions that survive the loop, in final order. -/
def keptResponseDefs (defs : List RespDef) : List RespDef :=
  buildResponsesFor (fun v => v) defs

/-- `buildResultData` (service_data.go): result name/ref (for non-Empty
results), the struct flag and view, and the responses. -/
def buildResultData (reg : UTEnv) (env : CodegenEnv) (gt : GoTypeTransformFn)
    (svcName pkgName viewsPkg eName : String) (md : MethodModel)
    (methodResult : AttributeExpr) (resultMetaView : Option String)
    (qObj : List NamedAttribute) (defs : List RespDef) : ResultData :=
  let view :=
    match resultMetaView with
    | some v => v
    | none => "default"
  let nr : String × String :=
    if !isEmptyD methodResult.typ then
      (env.goFullTypeName methodResult pkgName, env.goFullTypeRef methodResult pkgName)
    else ("", "")
  let result :=
    match md.viewedProjected with
    | some proj => proj
    | none => methodResult
  { isStruct := isObjectD reg result.typ
    name := nr.1
    ref := nr.2
    responses := buildResponsesFor
      (fun v => (mkResponseData reg env gt svcName pkgName viewsPkg eName md
        methodResult qObj v).1) defs
    view := view }

/-- The user-type identities registered in the registry. -/
def utIds (reg : UTEnv) : List String :=
  reg.map (fun p => p.1)

/-- Termination measure for the user-type traversal: the number of
registered identities not yet in the seen set. -/
def freshCount (reg : UTEnv) (s : List String) : Nat :=
  (utIds reg).countP (fun x => decide (¬x ∈ s))

def lookupUT_mem_ids : ∀ (reg : UTEnv) (id : String) (a : AttributeExpr),
    lookupUT reg id = some a → id ∈ utIds reg := by
  intro reg
  induction reg with
  | nil => intro id a h; simp [lookupUT] at h
  | cons p rest ih =>
    intro id a h
    obtain ⟨n, b⟩ := p
    simp only [lookupUT] at h
    by_cases hp : n = id
    · rw [hp]
      exact List.mem_cons_self _ _
    · rw [if_neg hp] at h
      exact List.mem_cons_of_mem _ (ih id a h)

def countP_notMem_anti : ∀ (l s t : List String), s ⊆ t →
    l.countP (fun x => decide (¬x ∈ t)) ≤ l.countP (fun x => decide (¬x ∈ s)) :=
  fun l s t hst => List.countP_mono_left (by
    intro a _ ha
    simp only [decide_eq_true_eq] at ha ⊢
    exact fun hmem => ha (hst hmem))

def countP_notMem_cons_lt : ∀ (l s : List String) (id : String),
    id ∈ l → ¬id ∈ s →
    l.countP (fun x => decide (¬x ∈ (id :: s))) < l.countP (fun x => decide (¬x ∈ s)) := by
  intro l
  induction l with
  | nil => intro s id h; cases h
  | cons a l ih =>
    intro s id hmem hnot
    simp only [List.countP_cons]
    rcases List.mem_cons.1 hmem with heq | hmem'
    · subst heq
      have hle := countP_notMem_anti l s (id :: s) (List.subset_cons_self id s)
      have h1 : (decide (¬id ∈ (id :: s))) = false := by simp
      have h2 : (decide (¬id ∈ s)) = true := by simpa using hnot
      rw [h1, h2]
      have e1 : (if (false = true) then (1 : Nat) else 0) = 0 := by simp
      have e2 : (if (true = true) then (1 : Nat) else 0) = 1 := by simp
      rw [e1, e2]
      omega
    · have hlt := ih s id hmem' hnot
      have hmono : (if (decide (¬a ∈ (id :: s))) = true then 1 else 0) ≤
          (if (decide (¬a ∈ s)) = true then 1 else 0) := by
        by_cases h : a ∈ s
        · simp [h]
        · by_cases h2 : a ∈ (id :: s) <;> simp [h, h2]
      omega

/-- The freshness decrease used by the traversal's termination argument. -/
def freshCount_cons_lt : ∀ (reg : UTEnv) (s : List String) (id : String),
    id ∈ utIds reg → ¬id ∈ s → freshCount reg (id :: s) < freshCount reg s :=
  fun reg s id hmem hnot => countP_notMem_cons_lt (utIds reg) s id hmem hnot

def freshCount_anti : ∀ (reg : UTEnv) (s t : List String), s ⊆ t →
    freshCount reg t ≤ freshCount reg s :=
  fun reg s t h => countP_notMem_anti (utIds reg) s t h

mutual
/-- `collectUserTypes` (service_data.go) in its threaded mode: the call was
handed a seen set (`len(seen) > 0`), so the object/array/map cases pass the
same (mutable, hence sequentially threaded) set to their children, and the
user-type case returns early on a seen identity or records the identity
BEFORE traversing the user type's attribute.  Returns the identities handed
to the callback, in call order, together with the final seen set; the
subtype refinement (the seen set only grows) is what bounds the recursion on
self-referential type graphs. -/
def collectThreaded (reg : UTEnv) : DataType → (s : List String) →
    List String × {t : List String // s ⊆ t}
  | .empty, s => ([], ⟨s, fun _ h => h⟩)
  | .primitive _, s => ([], ⟨s, fun _ h => h⟩)
  | .array e, s => collectThreadedA reg e s
  | .mapT k e, s =>
    match collectThreadedA reg k s with
    | (out1, ⟨s1, h1⟩) =>
      match collectThreadedA reg e s1 with
      | (out2, ⟨s2, h2⟩) =>
        (out1 ++ out2, ⟨s2, fun a ha => h2 (h1 ha)⟩)
  | .object fields, s => collectThreadedFields reg fields s
  | .userType id _, s =>
    if hmem : id ∈ s then ([], ⟨s, fun _ h => h⟩)
    else
      match hlk : lookupUT reg id with
      | none => ([id], ⟨id :: s, fun a ha => List.mem_cons_of_mem id ha⟩)
      | some a =>
        match collectThreaded reg a.typ (id :: s) with
        | (out, ⟨s2, h2⟩) =>
          (id :: out, ⟨s2, fun b hb => h2 (List.mem_cons_of_mem id hb)⟩)
termination_by dt s => (freshCount reg s, sizeOf dt)
decreasing_by
  all_goals simp_wf
  all_goals
    first
      | (apply Prod.Lex.left
         exact freshCount_cons_lt reg s id (lookupUT_mem_ids reg id a hlk) hmem)
      | (rcases Nat.lt_or_eq_of_le (freshCount_anti reg s s1 h1) with hlt | heq
         · exact Prod.Lex.left _ _ hlt
         · rw [heq]; apply Prod.Lex.right; omega)
      | (apply Prod.Lex.right; omega)

def collectThreadedA (reg : UTEnv) : AttributeExpr → (s : List String) →
    List String × {t : List String // s ⊆ t}
  | .mk t _ _ _ _ _, s => collectThreaded reg t s
termination_by a s => (freshCount reg s, sizeOf a)
decreasing_by
  all_goals simp_wf
  all_goals (apply Prod.Lex.right; omega)

def collectThreadedFields (reg : UTEnv) : List NamedAttribute → (s : List String) →
    List String × {t : List String // s ⊆ t}
  | [], s => ([], ⟨s, fun _ h => h⟩)
  | .mk _ a :: rest, s =>
    match collectThreadedA reg a s with
    | (out1, ⟨s1, h1⟩) =>
      match collectThreadedFields reg rest s1 with
      | (out2, ⟨s2, h2⟩) =>
        (out1 ++ out2, ⟨s2, fun x hx => h2 (h1 hx)⟩)
termination_by fields s => (freshCount reg s, sizeOf fields)
decreasing_by
  all_goals simp_wf
  all_goals
    first
      | (rcases Nat.lt_or_eq_of_le (freshCount_anti reg s s1 h1) with hlt | heq
         · exact Prod.Lex.left _ _ hlt
         · rw [heq]; apply Prod.Lex.right; omega)
      | (apply Prod.Lex.right; omega)
end

mutual
/-- `collectUserTypes` (service_data.go) in its fresh mode: the call was
made without a seen set, so each child of an object/array/map again starts
without one (the Go code forwards the empty variadic), and a user type
creates a fresh set, records its identity and continues in threaded mode. -/
def collectFresh (reg : UTEnv) : DataType → List String
  | .empty => []
  | .primitive _ => []
  | .array e => collectFreshA reg e
  | .mapT k e => collectFreshA reg k ++ collectFreshA reg e
  | .object fields => collectFreshFields reg fields
  | .userType id _ =>
    match lookupUT reg id with
    | none => [id]
    | some a => id :: (collectThreaded reg a.typ [id]).1

def collectFreshA (reg : UTEnv) : AttributeExpr → List String
  | .mk t _ _ _ _ _ => collectFresh reg t

def collectFreshFields (reg : UTEnv) : List NamedAttribute → List String
  | [] => []
  | .mk _ a :: rest => collectFreshA reg a ++ collectFreshFields reg rest
end

/-- `collectUserTypes(dt, cb, seen...)`: the identities handed to the
callback, in call order; `seen = none` is a call without the variadic seen
argument. -/
def collectUserTypes (reg : UTEnv) (dt : DataType) (seen : Option (List String)) :
    List String :=
  match seen with
  | some s => (collectThreaded reg dt s).1
  | none => collectFresh reg dt

/-- A registry with a user type whose attribute closure references
itself. -/
def cyclicReg : UTEnv :=
  [("T", AttributeExpr.mk (.object [.mk "self" (attrOf (.userType "T" "T"))])
    [] false false "" none)]

/-- Claim C5 as stated: `MustValidate` is set iff at least one decoded field
(request body, path or query parameter, or header) has a validation rule, is
required, or needs type conversion. -/
def claimC5Statement : Prop :=
  ∀ (body : Option TypeData) (paths queries : List ParamData)
    (headers : List HeaderData),
    requestMustValidate paths queries headers = true ↔
      ((∃ b, body = some b ∧ b.validateDef ≠ "") ∨
        (∃ p ∈ paths, p.validate ≠ "" ∨ p.required = true ∨ needConversion p.typ = true) ∨
        (∃ q ∈ queries, q.validate ≠ "" ∨ q.required = true ∨ needConversion q.typ = true) ∨
        (∃ h ∈ headers, h.validate ≠ "" ∨ h.required = true ∨ needConversion h.typ = true))

end GoaHTTP

namespace GoaHTTP

mutual
/-- `needInit` agrees with the "closure contains a UserType" predicate. -/
theorem needInit_eq_hasUserType (t : DataType) : needInit t = hasUserType t := by
  cases t with
  | empty => rfl
  | primitive k => rfl
  | array e => simp [needInit, hasUserType, needInitA_eq e]
  | mapT k e => simp [needInit, hasUserType, needInitA_eq k, needInitA_eq e]
  | object fields => simp [needInit, hasUserType, needInitFields_eq fields]
  | userType id nm => rfl

theorem needInitA_eq (a : AttributeExpr) : needInitA a = hasUserTypeA a := by
  cases a with
  | mk t r d v de o => simp [needInitA, hasUserTypeA, needInit_eq_hasUserType t]

theorem needInitFields_eq (fs : List NamedAttribute) :
    needInitFields fs = hasUserTypeFields fs := by
  cases fs with
  | nil => rfl
  | cons f rest =>
    cases f with
    | mk n a =>
      simp [needInitFields, hasUserTypeFields, needInitA_eq a, needInitFields_eq rest]
end

/-- C3: `needInit dt` returns true if and only if `dt` is not Empty and the
type closure of `dt` contains at least one UserType node; it is false for
Empty and every primitive, recurses through array, map and object
components, and is true for every user type. -/
theorem claim_C3_needInit (t : DataType) :
    needInit t = true ↔ t ≠ DataType.empty ∧ hasUserType t = true := by
  constructor
  · intro h
    refine ⟨?_, by rw [← needInit_eq_hasUserType]; exact h⟩
    intro he
    rw [he] at h
    simp [needInit] at h
  · rintro ⟨-, h⟩
    rw [needInit_eq_hasUserType]
    exact h

/-- Witness for C3 at a concrete input: an array of a user type needs
initialization. -/
theorem claim_C3_needInit_witness :
    needInit (DataType.array (attrOf (DataType.userType "acc" "Account"))) = true :=
  (claim_C3_needInit _).2 ⟨by simp, by simp [hasUserType, hasUserTypeA, attrOf]⟩

mutual
theorem needConversion_eq_not_stringLike (t : DataType) :
    needConversion t = !stringLike t := by
  cases t with
  | empty => rfl
  | primitive k => cases k <;> rfl
  | array e => simp [needConversion, stringLike, needConversionA_eq e]
  | mapT k e => simp [needConversion, stringLike, needConversionA_eq k, needConversionA_eq e]
  | object fields => rfl
  | userType id nm => rfl

theorem needConversionA_eq (a : AttributeExpr) :
    needConversionA a = !stringLikeA a := by
  cases a with
  | mk t r d v de o =>
    simp [needConversionA, stringLikeA, needConversion_eq_not_stringLike t]
end

/-- C4: `needConversion dt` returns false exactly when `dt` is built only
from Empty, the primitive kinds string, bytes and any, arrays whose element
needs no conversion and maps whose key and element need none; it is true for
every other primitive kind, and for objects and user types (the `default`
arm of the type switch). -/
theorem claim_C4_needConversion (t : DataType) :
    needConversion t = false ↔ stringLike t = true := by
  rw [needConversion_eq_not_stringLike]
  cases stringLike t <;> simp

/-- Witness for C4 at concrete inputs: an int query parameter needs string
conversion, an array of strings does not. -/
theorem claim_C4_needConversion_witness :
    needConversion (DataType.array (attrOf (DataType.primitive .string))) = false ∧
      needConversion (DataType.primitive .int) ≠ false :=
  ⟨(claim_C4_needConversion _).2 (by simp [stringLike, stringLikeA, attrOf]),
    fun h => by
      have := (claim_C4_needConversion (DataType.primitive .int)).1 h
      simp [stringLike] at this⟩

/-- C1 counterexample: for the server-request decoding context the claim
demands a non-pointer for a required string field with no default, but
`buildBodyType` passes `ptr = !marshaled = true` for that context, so the
field is generated behind a pointer (as the source's own comments state:
unmarshaled types use pointer fields regardless of the required flag). -/
theorem claim_C1_counterexample : ¬claimC1Statement := by
  intro h
  have h1 := h []
    (.mk (.object [.mk "id" (.mk (.primitive .string) [] false false "" none)])
      ["id"] false false "" none)
    (.mk (.primitive .string) [] false false "" none)
    "id" .string (by rfl) (by rfl) (by rfl)
  have h2 := (h1.1 true true (Or.inl ⟨rfl, rfl⟩)).1 (by rfl) (by rfl)
  exact absurd h2 (by decide)

/-- C1 amended: for a primitive body field, the client-request context (the
only one with `marshaled` set) represents the field as a pointer iff
`IsPrimitivePointer` holds with defaults considered (optional, no default,
nullable kind); every other `buildBodyType` context — server-request
decoding, client-response decoding, and also server-response encoding —
represents every nullable-kind field as a pointer regardless of the
required flag and default.  The four `attributeTypeData` call sites from
`analyze` (server-request, client-request, server-response,
client-response) follow the same rule. -/
theorem claim_C1_amended (reg : UTEnv) (parent child : AttributeExpr)
    (fname : String) (k : PrimitiveKind)
    (hfind : parent.findAttr reg fname = some child)
    (htyp : child.typ = .primitive k) :
    (∀ svr req : Bool,
      buildBodyTypeFieldPointer reg svr req parent fname =
        if buildBodyTypeMarshaled svr req then
          isPrimitivePointerAttr reg parent fname true
        else isPointerKind k) ∧
    attributeTypeDataFieldPointer reg true true true parent fname = isPointerKind k ∧
    attributeTypeDataFieldPointer reg true false false parent fname =
      isPrimitivePointerAttr reg parent fname true ∧
    attributeTypeDataFieldPointer reg false true true parent fname = isPointerKind k ∧
    attributeTypeDataFieldPointer reg false true false parent fname = isPointerKind k := by
  have hko : ∀ useDefault : Bool,
      goTypeDefFieldPointer reg true useDefault parent fname = isPointerKind k := by
    intro useDefault
    simp only [goTypeDefFieldPointer, isPrimitivePointerAttr, hfind, htyp]
    cases isPointerKind k <;>
      cases parent.isRequired fname <;>
        cases child.hasDefault <;> cases useDefault <;> rfl
  have hmar : goTypeDefFieldPointer reg false true parent fname =
      isPrimitivePointerAttr reg parent fname true := by
    simp only [goTypeDefFieldPointer, isPrimitivePointerAttr, hfind, htyp]
    cases isPointerKind k <;>
      cases parent.isRequired fname <;> cases child.hasDefault <;> rfl
  refine ⟨?_, ?_, ?_, ?_, ?_⟩
  · intro svr req
    cases svr <;> cases req <;>
      simp only [buildBodyTypeFieldPointer, buildBodyTypeMarshaled, Bool.not_true,
        Bool.not_false, Bool.false_and, Bool.true_and, hko, hmar] <;>
      simp
  · exact hko _
  · simpa [attributeTypeDataFieldPointer, attributeTypeDataUseDefault] using hmar
  · exact hko _
  · exact hko _

/-- Witness for the amended C1 theorem: at a concrete required string field
with no default, the server-request decoding body type still uses a
pointer. -/
theorem claim_C1_amended_witness :
    buildBodyTypeFieldPointer [] true true
      (.mk (.object [.mk "id" (.mk (.primitive .string) [] false false "" none)])
        ["id"] false false "" none) "id" = true := by
  have h := (claim_C1_amended []
    (.mk (.object [.mk "id" (.mk (.primitive .string) [] false false "" none)])
      ["id"] false false "" none)
    (.mk (.primitive .string) [] false false "" none)
    "id" .string rfl rfl).1 true true
  simpa [buildBodyTypeMarshaled, isPointerKind] using h

/-- C5 counterexample: a single required string path parameter with no
validation code is a decoded field that is required, yet the computed
`MustValidate` flag stays false (the path-parameter loop does not test
`Required`, and the request body is not consulted at all). -/
theorem claim_C5_counterexample : ¬claimC5Statement := by
  intro h
  have h1 := (h none [{ required := true, typ := .primitive .string }] [] []).2
    (Or.inr (Or.inl ⟨{ required := true, typ := .primitive .string },
      List.mem_singleton.mpr rfl, Or.inr (Or.inl rfl)⟩))
  exact absurd h1 (by decide)

/-- C5 amended: the server request `MustValidate` flag is set iff some path
parameter has validation code or needs string conversion, or some query
parameter or header has validation code, is required, or needs string
conversion; the request body and the required flag of path parameters do
not contribute. -/
theorem claim_C5_amended (paths queries : List ParamData)
    (headers : List HeaderData) :
    requestMustValidate paths queries headers = true ↔
      ((∃ p ∈ paths, p.validate ≠ "" ∨ needConversion p.typ = true) ∨
        (∃ q ∈ queries, q.validate ≠ "" ∨ q.required = true ∨ needConversion q.typ = true) ∨
        (∃ h ∈ headers, h.validate ≠ "" ∨ h.required = true ∨ needConversion h.typ = true)) := by
  simp [requestMustValidate, List.any_eq_true, Bool.or_eq_true, bne_iff_ne, or_assoc]

/-- C6: every `ParamData` produced by `extractPathParams` has `Pointer =
false`, and every path constructor argument built by `analyze` is marked
`Required = true`, whatever the attribute's own required flag is. -/
theorem claim_C6_path_params_never_optional :
    (∀ (reg : UTEnv) (env : CodegenEnv) (walk : List MappedParam)
      (st : AttributeExpr) (p : ParamData),
      p ∈ extractPathParams reg env walk st → p.pointer = false) ∧
    (∀ (reg : UTEnv) (env : CodegenEnv) (ws : List String)
      (obj : List NamedAttribute) (pa : AttributeExpr) (a : InitArgData),
      a ∈ buildPathInitArgs reg env ws obj pa → a.required = true) := by
  constructor
  · intro reg env walk st p hp
    simp only [extractPathParams, List.mem_map] at hp
    obtain ⟨m, -, rfl⟩ := hp
    rfl
  · intro reg env ws obj pa a ha
    simp only [buildPathInitArgs, List.mem_map] at ha
    obtain ⟨arg, -, rfl⟩ := ha
    rfl

/-- Witness for C6: a concrete optional path attribute still yields a
non-pointer parameter and a required constructor argument. -/
theorem claim_C6_path_params_never_optional_witness :
    (extractPathParams [] {} [{ name := "id", elem := "id", attr := attrOf (.primitive .string) }] (attrOf .empty)).all
        (fun p => !p.pointer) = true ∧
    (buildPathInitArgs [] {} ["id"] [] (attrOf .empty)).all
        (fun a => a.required) = true := by
  constructor
  · have h := claim_C6_path_params_never_optional.1 [] {}
      [{ name := "id", elem := "id", attr := attrOf (.primitive .string) }]
      (attrOf .empty)
    simp only [List.all_eq_true]
    intro p hp
    simp [h p hp]
  · have h := claim_C6_path_params_never_optional.2 [] {} ["id"] [] (attrOf .empty)
    simp only [List.all_eq_true]
    intro a ha
    simp [h a ha]

/-- C8: `buildBodyType` returns no descriptor exactly when the body
attribute's type is Empty, and a descriptor for every non-Empty body
type. -/
theorem claim_C8_buildBodyType_nil_iff_empty (reg : UTEnv) (env : CodegenEnv)
    (gt : GoTypeTransformFn) (eName svcName pkg : String) (body att : AttributeExpr)
    (req svr viewed : Bool) :
    (buildBodyType reg env gt eName svcName pkg body att req svr viewed).data = none ↔
      body.typ = .empty := by
  unfold buildBodyType
  cases h : body.typ <;> simp [isEmptyD, h]

/-- Witness for C8: an Empty body yields no descriptor, a user-type body
yields one. -/
theorem claim_C8_buildBodyType_nil_iff_empty_witness :
    (buildBodyType [] {} (fun _ _ => .error "boom") "e" "svc" "pkg"
      (attrOf .empty) (attrOf .empty) true true false).data = none ∧
    ¬(buildBodyType [] {} (fun _ _ => .error "boom") "e" "svc" "pkg"
      (attrOf (.userType "B" "B")) (attrOf .empty) true true false).data = none := by
  constructor
  · exact (claim_C8_buildBodyType_nil_iff_empty [] {} (fun _ _ => .error "boom")
      "e" "svc" "pkg" (attrOf .empty) (attrOf .empty) true true false).2 rfl
  · intro h
    have := (claim_C8_buildBodyType_nil_iff_empty [] {} (fun _ _ => .error "boom")
      "e" "svc" "pkg" (attrOf (.userType "B" "B")) (attrOf .empty) true true false).1 h
    simp [attrOf, AttributeExpr.typ] at this

/-- C2: when `GoTypeTransform` fails, each builder prints the error to the
diagnostic stream and still returns its fully populated data: the payload
builder keeps its constructor, the response-result constructor and the body
constructor are still produced, and no builder has an error channel to
propagate through. -/
theorem claim_C2_transform_errors_printed_not_propagated :
    (∀ (reg : UTEnv) (env : CodegenEnv) (gt : GoTypeTransformFn)
      (svcName pkgName : String) (e : PayloadEndpointModel) (msg : String),
      needInit e.payload.typ = true →
      isEmptyD e.bodyAttr.typ = false →
      gt e.bodyAttr.typ (payloadTransformTargetType reg e) = .error msg →
      msg ∈ (buildPayloadData reg env gt svcName pkgName e).diags ∧
        (buildPayloadData reg env gt svcName pkgName e).data.request.payloadInit.isSome = true) ∧
    (∀ (reg : UTEnv) (env : CodegenEnv) (gt : GoTypeTransformFn)
      (svcName pkgName viewsPkg : String) (md : MethodModel)
      (methodResult : AttributeExpr) (eName : String)
      (qObj : List NamedAttribute) (resp : RespDef) (msg : String),
      isEmptyD resp.body.typ = false →
      gt resp.body.typ (respBodyTargetType reg md methodResult resp) = .error msg →
      msg ∈ (buildResponseResultInit reg env gt svcName pkgName viewsPkg md
        methodResult eName qObj resp).2.2) ∧
    (∀ (reg : UTEnv) (env : CodegenEnv) (gt : GoTypeTransformFn)
      (eName svcName pkg : String) (body att : AttributeExpr)
      (req svr viewed : Bool) (msg : String),
      ((svr && !req) || (!svr && req)) = true →
      isEmptyD att.typ = false →
      needInit body.typ = true →
      isEmptyD body.typ = false →
      gt (bodyInitSrcType reg body att) body.typ = .error msg →
      msg ∈ (buildBodyType reg env gt eName svcName pkg body att req svr viewed).diags ∧
        (buildBodyType reg env gt eName svcName pkg body att req svr viewed).data.isSome = true) := by
  refine ⟨?_, ?_, ?_⟩
  · intro reg env gt svcName pkgName e msg hinit hbody hgt
    have hblock : (payloadTransformBlock reg env gt e).2.2.2.2.1 = [msg] := by
      unfold payloadTransformTargetType at hgt
      unfold payloadTransformBlock
      cases ho : e.bodyAttr.origin <;>
        simp only [ho] at hgt <;>
        simp [hbody, ho, hgt, transformDiag]
    constructor
    · show msg ∈ (buildPayloadData reg env gt svcName pkgName e).diags
      unfold buildPayloadData
      simp only [buildPayloadInit, hinit, if_true]
      simp [hblock]
    · unfold buildPayloadData
      simp [buildPayloadInit, hinit]
  · intro reg env gt svcName pkgName viewsPkg md methodResult eName qObj resp msg hbody hgt
    unfold respBodyTargetType at hgt
    unfold buildResponseResultInit
    cases hv : md.viewedProjected <;> cases ho : resp.body.origin <;>
      simp only [hv, ho] at hgt <;>
      simp [hbody, hv, ho, hgt, transformDiag]
  · intro reg env gt eName svcName pkg body att req svr viewed msg hflags hatt hneed hbody hgt
    have hib : ∀ vdef, (buildBodyTypeInit reg env gt eName svcName pkg body att
        req svr viewed vdef).2.2 = [msg] := by
      intro vdef
      unfold bodyInitSrcType at hgt
      unfold buildBodyTypeInit
      cases ho : body.origin <;>
        simp only [ho] at hgt <;>
        simp [hflags, hatt, hneed, ho, hgt, transformDiag]
    constructor
    · show msg ∈ (buildBodyType reg env gt eName svcName pkg body att req svr viewed).diags
      unfold buildBodyType
      simp only [hbody, Bool.false_eq_true, if_false]
      simp [hib]
    · unfold buildBodyType
      simp [hbody]

/-- Witness for C2: an always-failing transform still yields a payload
constructor, a response-result constructor and a body descriptor, with the
error on the diagnostic stream. -/
theorem claim_C2_transform_errors_printed_not_propagated_witness :
    ("boom" ∈ (buildPayloadData [] {} (fun _ _ => .error "boom") "svc" "pkg"
      { bodyAttr := attrOf (.userType "B" "B"), payload := attrOf (.userType "P" "P") }).diags ∧
      (buildPayloadData [] {} (fun _ _ => .error "boom") "svc" "pkg"
        { bodyAttr := attrOf (.userType "B" "B"), payload := attrOf (.userType "P" "P") }).data.request.payloadInit.isSome = true) ∧
    ("boom" ∈ (buildResponseResultInit [] {} (fun _ _ => .error "boom") "svc" "pkg"
      "views" {} (attrOf (.userType "R" "R")) "e" [] { body := attrOf (.userType "B" "B") }).2.2) ∧
    ("boom" ∈ (buildBodyType [] {} (fun _ _ => .error "boom") "e" "svc" "pkg"
      (attrOf (.userType "B" "B")) (attrOf (.userType "P" "P")) true false false).diags ∧
      (buildBodyType [] {} (fun _ _ => .error "boom") "e" "svc" "pkg"
        (attrOf (.userType "B" "B")) (attrOf (.userType "P" "P")) true false false).data.isSome = true) :=
  ⟨claim_C2_transform_errors_printed_not_propagated.1 [] {} (fun _ _ => .error "boom")
      "svc" "pkg" { bodyAttr := attrOf (.userType "B" "B"), payload := attrOf (.userType "P" "P") }
      "boom" rfl rfl rfl,
    claim_C2_transform_errors_printed_not_propagated.2.1 [] {} (fun _ _ => .error "boom")
      "svc" "pkg" "views" {} (attrOf (.userType "R" "R")) "e" []
      { body := attrOf (.userType "B" "B") } "boom" rfl rfl,
    claim_C2_transform_errors_printed_not_propagated.2.2 [] {} (fun _ _ => .error "boom")
      "e" "svc" "pkg" (attrOf (.userType "B" "B")) (attrOf (.userType "P" "P"))
      true false false "boom" rfl rfl rfl rfl rfl⟩

/-- Invariant of the threaded traversal: the final seen set is exactly the
emitted identities plus the initial seen set, the emitted identities are
pairwise distinct, and none of them was in the initial seen set. -/
def ThreadedInv (out t s : List String) : Prop :=
  (∀ x, x ∈ t ↔ x ∈ out ∨ x ∈ s) ∧ out.Nodup ∧ (∀ x ∈ out, ¬x ∈ s)

theorem collectThreaded_inv (reg : UTEnv) :
    ∀ (dt : DataType) (s : List String),
      ThreadedInv (collectThreaded reg dt s).1 (collectThreaded reg dt s).2.val s := by
  apply collectThreaded.induct reg
    (fun dt s => ThreadedInv (collectThreaded reg dt s).1 (collectThreaded reg dt s).2.val s)
    (fun fields s => ThreadedInv (collectThreadedFields reg fields s).1
      (collectThreadedFields reg fields s).2.val s)
    (fun a s => ThreadedInv (collectThreadedA reg a s).1 (collectThreadedA reg a s).2.val s)
  · intro s
    refine ⟨fun x => by simp [collectThreaded], by simp [collectThreaded], by simp [collectThreaded]⟩
  · intro k s
    refine ⟨fun x => by simp [collectThreaded], by simp [collectThreaded], by simp [collectThreaded]⟩
  · intro e s ih
    have e1 : (collectThreaded reg (.array e) s).1 = (collectThreadedA reg e s).1 := by
      simp [collectThreaded]
    have e2 : (collectThreaded reg (.array e) s).2.val = (collectThreadedA reg e s).2.val := by
      simp [collectThreaded]
    rw [ThreadedInv, e1, e2]
    exact ih
  · intro k e s out1 s1 h1 hk out2 s2 h2 he ih1 ih2
    rw [ThreadedInv, hk] at ih1
    rw [ThreadedInv, he] at ih2
    dsimp only at ih1 ih2
    have houter1 : (collectThreaded reg (.mapT k e) s).1 =
        (collectThreadedA reg k s).1 ++
          (collectThreadedA reg e (collectThreadedA reg k s).2.val).1 := by
      simp [collectThreaded]
    have houter2 : (collectThreaded reg (.mapT k e) s).2.val =
        (collectThreadedA reg e (collectThreadedA reg k s).2.val).2.val := by
      simp [collectThreaded]
    have e1 : (collectThreaded reg (.mapT k e) s).1 = out1 ++ out2 := by
      rw [houter1, hk]
      dsimp only
      rw [he]
    have e2 : (collectThreaded reg (.mapT k e) s).2.val = s2 := by
      rw [houter2, hk]
      dsimp only
      rw [he]
    rw [ThreadedInv, e1, e2]
    obtain ⟨m1, n1, d1⟩ := ih1
    obtain ⟨m2, n2, d2⟩ := ih2
    refine ⟨?_, ?_, ?_⟩
    · intro x
      rw [m2 x, List.mem_append]
      constructor
      · rintro (hx | hx)
        · exact Or.inl (Or.inr hx)
        · rcases (m1 x).1 hx with hx1 | hx1
          · exact Or.inl (Or.inl hx1)
          · exact Or.inr hx1
      · rintro ((hx | hx) | hx)
        · exact Or.inr ((m1 x).2 (Or.inl hx))
        · exact Or.inl hx
        · exact Or.inr ((m1 x).2 (Or.inr hx))
    · rw [List.nodup_append]
      refine ⟨n1, n2, ?_⟩
      intro x hx1 hx2
      exact d2 x hx2 ((m1 x).2 (Or.inl hx1))
    · intro x hx
      rcases List.mem_append.1 hx with hx1 | hx1
      · exact d1 x hx1
      · intro hs
        exact d2 x hx1 ((m1 x).2 (Or.inr hs))
  · intro fields s ih
    have e1 : (collectThreaded reg (.object fields) s).1 =
        (collectThreadedFields reg fields s).1 := by
      simp [collectThreaded]
    have e2 : (collectThreaded reg (.object fields) s).2.val =
        (collectThreadedFields reg fields s).2.val := by
      simp [collectThreaded]
    rw [ThreadedInv, e1, e2]
    exact ih
  · intro id nm s hmem
    have e1 : (collectThreaded reg (.userType id nm) s).1 = [] := by
      simp [collectThreaded, hmem]
    have e2 : (collectThreaded reg (.userType id nm) s).2.val = s := by
      simp [collectThreaded, hmem]
    rw [ThreadedInv, e1, e2]
    refine ⟨fun x => by simp, List.nodup_nil, by simp⟩
  · intro id nm s hmem hlk
    have e1 : (collectThreaded reg (.userType id nm) s).1 = [id] := by
      simp only [collectThreaded]
      rw [dif_neg hmem]
      split
      · rfl
      · rename_i a2 heqa
        rw [hlk] at heqa
        simp at heqa
    have e2 : (collectThreaded reg (.userType id nm) s).2.val = id :: s := by
      simp only [collectThreaded]
      rw [dif_neg hmem]
      split
      · rfl
      · rename_i a2 heqa
        rw [hlk] at heqa
        simp at heqa
    rw [ThreadedInv, e1, e2]
    refine ⟨fun x => by simp [List.mem_cons], by simp, ?_⟩
    intro x hx
    rw [List.mem_singleton] at hx
    rw [hx]
    exact hmem
  · intro id nm s hmem a hlk out s2 h2 heq ih
    rw [ThreadedInv, heq] at ih
    dsimp only at ih
    have e1 : (collectThreaded reg (.userType id nm) s).1 = id :: out := by
      simp only [collectThreaded]
      rw [dif_neg hmem]
      split
      · rename_i heqa
        rw [hlk] at heqa
        simp at heqa
      · rename_i a2 heqa
        rw [hlk] at heqa
        injection heqa with h
        subst h
        rw [heq]
    have e2 : (collectThreaded reg (.userType id nm) s).2.val = s2 := by
      simp only [collectThreaded]
      rw [dif_neg hmem]
      split
      · rename_i heqa
        rw [hlk] at heqa
        simp at heqa
      · rename_i a2 heqa
        rw [hlk] at heqa
        injection heqa with h
        subst h
        rw [heq]
    rw [ThreadedInv, e1, e2]
    obtain ⟨m, n, d⟩ := ih
    refine ⟨?_, ?_, ?_⟩
    · intro x
      rw [m x]
      simp only [List.mem_cons]
      tauto
    · refine List.Nodup.cons ?_ n
      intro hid
      exact d id hid (List.mem_cons_self id s)
    · intro x hx
      rcases List.mem_cons.1 hx with hx1 | hx1
      · rw [hx1]
        exact hmem
      · intro hs
        exact d x hx1 (List.mem_cons_of_mem id hs)
  · intro s
    refine ⟨fun x => by simp [collectThreadedFields], by simp [collectThreadedFields],
      by simp [collectThreadedFields]⟩
  · intro name a rest s out1 s1 h1 ha out2 s2 h2 hr ih1 ih2
    rw [ThreadedInv, ha] at ih1
    rw [ThreadedInv, hr] at ih2
    dsimp only at ih1 ih2
    have houter1 : (collectThreadedFields reg (.mk name a :: rest) s).1 =
        (collectThreadedA reg a s).1 ++
          (collectThreadedFields reg rest (collectThreadedA reg a s).2.val).1 := by
      simp [collectThreadedFields]
    have houter2 : (collectThreadedFields reg (.mk name a :: rest) s).2.val =
        (collectThreadedFields reg rest (collectThreadedA reg a s).2.val).2.val := by
      simp [collectThreadedFields]
    have e1 : (collectThreadedFields reg (.mk name a :: rest) s).1 = out1 ++ out2 := by
      rw [houter1, ha]
      dsimp only
      rw [hr]
    have e2 : (collectThreadedFields reg (.mk name a :: rest) s).2.val = s2 := by
      rw [houter2, ha]
      dsimp only
      rw [hr]
    rw [ThreadedInv, e1, e2]
    obtain ⟨m1, n1, d1⟩ := ih1
    obtain ⟨m2, n2, d2⟩ := ih2
    refine ⟨?_, ?_, ?_⟩
    · intro x
      rw [m2 x, List.mem_append]
      constructor
      · rintro (hx | hx)
        · exact Or.inl (Or.inr hx)
        · rcases (m1 x).1 hx with hx1 | hx1
          · exact Or.inl (Or.inl hx1)
          · exact Or.inr hx1
      · rintro ((hx | hx) | hx)
        · exact Or.inr ((m1 x).2 (Or.inl hx))
        · exact Or.inl hx
        · exact Or.inr ((m1 x).2 (Or.inr hx))
    · rw [List.nodup_append]
      refine ⟨n1, n2, ?_⟩
      intro x hx1 hx2
      exact d2 x hx2 ((m1 x).2 (Or.inl hx1))
    · intro x hx
      rcases List.mem_append.1 hx with hx1 | hx1
      · exact d1 x hx1
      · intro hs
        exact d2 x hx1 ((m1 x).2 (Or.inr hs))
  · intro t required hasDefault hasValidation description origin s ih
    have e1 : (collectThreadedA reg (.mk t required hasDefault hasValidation description origin) s).1 =
        (collectThreaded reg t s).1 := by
      simp [collectThreadedA]
    have e2 : (collectThreadedA reg (.mk t required hasDefault hasValidation description origin) s).2.val =
        (collectThreaded reg t s).2.val := by
      simp [collectThreadedA]
    rw [ThreadedInv, e1, e2]
    exact ih

/-- The user-type step equation: a fresh identity is recorded in the seen
set before the user type's attribute tree is traversed, and the callback
fires exactly once for it at the head of the emission order. -/
theorem collectThreaded_userType_step (reg : UTEnv) (id nm : String)
    (a : AttributeExpr) (s : List String) (hmem : ¬id ∈ s)
    (hlk : lookupUT reg id = some a) :
    (collectThreaded reg (.userType id nm) s).1 =
      id :: (collectThreaded reg a.typ (id :: s)).1 := by
  simp only [collectThreaded]
  rw [dif_neg hmem]
  split
  · rename_i heqa
    rw [hlk] at heqa
    simp at heqa
  · rename_i a2 heqa
    rw [hlk] at heqa
    injection heqa with h
    subst h
    rfl

/-- C9: the recursive user-type traversal is total (every equation below is
about the function the kernel accepted as terminating, including on the
self-referential registry `cyclicReg`); along a threaded recursion chain the
callback fires at most once per identity (the emitted identities are
pairwise distinct and disjoint from the initial seen set); a fresh identity
is recorded in the seen set before its attribute tree is traversed (the
recursive call receives `id :: s`); and on the self-referential type the
traversal completes, emitting the identity exactly once. -/
theorem claim_C9_collectUserTypes_cycle_safe :
    (∀ (reg : UTEnv) (dt : DataType) (s : List String),
      (collectUserTypes reg dt (some s)).Nodup ∧
      ∀ x ∈ collectUserTypes reg dt (some s), ¬x ∈ s) ∧
    (∀ (reg : UTEnv) (id nm : String) (a : AttributeExpr) (s : List String),
      ¬id ∈ s → lookupUT reg id = some a →
      collectUserTypes reg (.userType id nm) (some s) =
        id :: collectUserTypes reg a.typ (some (id :: s))) ∧
    collectUserTypes cyclicReg (.userType "T" "T") none = ["T"] := by
  refine ⟨?_, ?_, ?_⟩
  · intro reg dt s
    have h := collectThreaded_inv reg dt s
    exact ⟨h.2.1, h.2.2⟩
  · intro reg id nm a s hmem hlk
    exact collectThreaded_userType_step reg id nm a s hmem hlk
  · show collectFresh cyclicReg (.userType "T" "T") = ["T"]
    have hseen : (collectThreaded cyclicReg (.userType "T" "T") ["T"]).1 = [] := by
      simp only [collectThreaded]
      rw [dif_pos (by simp)]
    have hA : (collectThreadedA cyclicReg (attrOf (.userType "T" "T")) ["T"]).1 = [] ∧
        (collectThreadedA cyclicReg (attrOf (.userType "T" "T")) ["T"]).2.val = ["T"] := by
      constructor
      · simp only [attrOf, collectThreadedA]
        exact hseen
      · simp only [attrOf, collectThreadedA, collectThreaded]
        rw [dif_pos (by simp)]
    have hfields : (collectThreadedFields cyclicReg
        [.mk "self" (attrOf (.userType "T" "T"))] ["T"]).1 = [] := by
      have houter : (collectThreadedFields cyclicReg
          [.mk "self" (attrOf (.userType "T" "T"))] ["T"]).1 =
          (collectThreadedA cyclicReg (attrOf (.userType "T" "T")) ["T"]).1 ++
            (collectThreadedFields cyclicReg []
              (collectThreadedA cyclicReg (attrOf (.userType "T" "T")) ["T"]).2.val).1 := by
        simp [collectThreadedFields]
      rw [houter, hA.1, hA.2]
      simp [collectThreadedFields]
    have hobj : (collectThreaded cyclicReg
        (.object [.mk "self" (attrOf (.userType "T" "T"))]) ["T"]).1 = [] := by
      have : (collectThreaded cyclicReg
          (.object [.mk "self" (attrOf (.userType "T" "T"))]) ["T"]).1 =
          (collectThreadedFields cyclicReg
            [.mk "self" (attrOf (.userType "T" "T"))] ["T"]).1 := by
        simp [collectThreaded]
      rw [this, hfields]
    have hlk : lookupUT cyclicReg "T" =
        some (AttributeExpr.mk (.object [.mk "self" (attrOf (.userType "T" "T"))])
          [] false false "" none) := by
      simp [cyclicReg, lookupUT]
    simp only [collectFresh, hlk]
    rw [show (AttributeExpr.mk (.object [.mk "self" (attrOf (.userType "T" "T"))])
      [] false false "" none).typ =
        DataType.object [.mk "self" (attrOf (.userType "T" "T"))] from rfl]
    rw [hobj]

/-- Witness for C9: on the self-referential registry, the threaded traversal
emits distinct identities, and the traversal of a fresh user type records it
before descending into its attribute. -/
theorem claim_C9_collectUserTypes_cycle_safe_witness :
    (collectUserTypes cyclicReg (.userType "T" "T") (some [])).Nodup ∧
    collectUserTypes cyclicReg (.userType "T" "T") (some []) =
      "T" :: collectUserTypes cyclicReg
        (DataType.object [.mk "self" (attrOf (.userType "T" "T"))]) (some ["T"]) :=
  ⟨(claim_C9_collectUserTypes_cycle_safe.1 cyclicReg (.userType "T" "T") []).1,
    by
      have h := claim_C9_collectUserTypes_cycle_safe.2.1 cyclicReg "T" "T"
        (AttributeExpr.mk (.object [.mk "self" (attrOf (.userType "T" "T"))])
          [] false false "" none)
        [] (by simp) (by simp [cyclicReg, lookupUT])
      simpa [AttributeExpr.typ] using h⟩

theorem respLoopData_map {α : Type} (C : RespDef → α) :
    ∀ (defs : List RespDef) (i : Nat) (nt : Int),
      respLoopData C defs i nt =
        ((respLoopData (fun v => v) defs i nt).1.map C,
          (respLoopData (fun v => v) defs i nt).2) := by
  intro defs
  induction defs with
  | nil => intro i nt; rfl
  | cons v rest ih =>
    intro i nt
    simp only [respLoopData]
    by_cases hv : v.tag0 = ""
    · by_cases hnt : nt > -1
      · simp [hv, hnt, ih]
      · simp [hv, hnt, ih]
    · simp [hv, ih]

theorem listSwap_map {α β : Type} (f : α → β) (l : List α) (a b : Nat) :
    listSwap (l.map f) a b = (listSwap l a b).map f := by
  unfold listSwap
  rw [List.getElem?_map, List.getElem?_map]
  cases ha : l[a]? <;> cases hb : l[b]? <;> simp [List.map_set]

theorem buildResponsesFor_map {α : Type} (C : RespDef → α) (defs : List RespDef) :
    buildResponsesFor C defs = (keptResponseDefs defs).map C := by
  simp only [keptResponseDefs, buildResponsesFor]
  rw [respLoopData_map C defs 0 (-1)]
  simp only [List.length_map]
  by_cases hc : 0 ≤ (respLoopData (fun v => v) defs 0 (-1)).2 ∧
      (respLoopData (fun v => v) defs 0 (-1)).2 <
        ((respLoopData (fun v => v) defs 0 (-1)).1.length : Int) - 1
  · rw [if_pos hc, if_pos hc, listSwap_map]
  · rw [if_neg hc, if_neg hc]

theorem respLoop_threaded_no_tagless :
    ∀ (defs : List RespDef) (i : Nat) (nt : Int), 0 ≤ nt →
      (respLoopData (fun v => v) defs i nt).2 = nt ∧
      ∀ (m : Nat) (d : RespDef),
        (respLoopData (fun v => v) defs i nt).1[m]? = some d → ¬d.tag0 = "" := by
  intro defs
  induction defs with
  | nil =>
    intro i nt h
    exact ⟨rfl, by intro m d hm; simp [respLoopData] at hm⟩
  | cons v rest ih =>
    intro i nt h
    simp only [respLoopData]
    by_cases hv : v.tag0 = ""
    · have hgt : nt > -1 := by omega
      simp only [hv, if_pos, hgt, if_true]
      exact ih (i + 1) nt h
    · simp only [hv, if_neg, ite_false]
      obtain ⟨h1, h2⟩ := ih (i + 1) nt h
      refine ⟨h1, ?_⟩
      intro m d hm
      cases m with
      | zero =>
        simp only [List.getElem?_cons_zero, Option.some.injEq] at hm
        rw [← hm]
        exact hv
      | succ m' => exact h2 m' d (by simpa using hm)

theorem respLoop_fresh_spec :
    ∀ (defs : List RespDef) (i : Nat),
      ((respLoopData (fun v => v) defs i (-1)).2 = -1 ∧
        ∀ (m : Nat) (d : RespDef),
          (respLoopData (fun v => v) defs i (-1)).1[m]? = some d → ¬d.tag0 = "") ∨
      (∃ (j : Nat) (dl : RespDef),
        (respLoopData (fun v => v) defs i (-1)).2 = ((i + j : Nat) : Int) ∧
        (respLoopData (fun v => v) defs i (-1)).1[j]? = some dl ∧ dl.tag0 = "" ∧
        ∀ (m : Nat) (d : RespDef), m ≠ j →
          (respLoopData (fun v => v) defs i (-1)).1[m]? = some d → ¬d.tag0 = "") := by
  intro defs
  induction defs with
  | nil => intro i; left; exact ⟨rfl, by intro m d hm; simp [respLoopData] at hm⟩
  | cons v rest ih =>
    intro i
    by_cases hv : v.tag0 = ""
    · right
      have hA := respLoop_threaded_no_tagless rest (i + 1) (Int.ofNat i)
        (Int.ofNat_nonneg i)
      have hno : ¬((-1 : Int) > -1) := by omega
      have hstep : respLoopData (fun v => v) (v :: rest) i (-1) =
          (v :: (respLoopData (fun v => v) rest (i + 1) (Int.ofNat i)).1,
            (respLoopData (fun v => v) rest (i + 1) (Int.ofNat i)).2) := by
        simp [respLoopData, hv, hno]
      refine ⟨0, v, ?_, ?_, hv, ?_⟩
      · rw [hstep]
        show (respLoopData (fun v => v) rest (i + 1) (Int.ofNat i)).2 = _
        rw [hA.1]
        simp
      · rw [hstep]
        simp
      · intro m d hm hmd
        cases m with
        | zero => exact absurd rfl hm
        | succ m' =>
          rw [hstep] at hmd
          exact hA.2 m' d (by simpa using hmd)
    · have hstep : respLoopData (fun v => v) (v :: rest) i (-1) =
          (v :: (respLoopData (fun v => v) rest (i + 1) (-1)).1,
            (respLoopData (fun v => v) rest (i + 1) (-1)).2) := by
        simp [respLoopData, hv]
      rcases ih (i + 1) with ⟨h1, h2⟩ | ⟨j, dl, h1, h2, h3, h4⟩
      · left
        rw [hstep]
        refine ⟨h1, ?_⟩
        intro m d hm
        cases m with
        | zero =>
          simp only [List.getElem?_cons_zero, Option.some.injEq] at hm
          rw [← hm]; exact hv
        | succ m' => exact h2 m' d (by simpa using hm)
      · right
        rw [hstep]
        refine ⟨j + 1, dl, ?_, by simpa using h2, h3, ?_⟩
        · rw [h1]; omega
        · intro m d hm hmd
          cases m with
          | zero =>
            simp only [List.getElem?_cons_zero, Option.some.injEq] at hmd
            rw [← hmd]; exact hv
          | succ m' =>
            exact h4 m' d (by omega) (by simpa using hmd)

theorem keptResponseDefs_spec (defs : List RespDef) :
    (∀ (m n : Nat) (dm dn : RespDef), (keptResponseDefs defs)[m]? = some dm →
      (keptResponseDefs defs)[n]? = some dn → dm.tag0 = "" → dn.tag0 = "" → m = n) ∧
    ((∃ d ∈ keptResponseDefs defs, d.tag0 = "") →
      ∃ dl, (keptResponseDefs defs).getLast? = some dl ∧ dl.tag0 = "") := by
  rcases respLoop_fresh_spec defs 0 with ⟨h1, h2⟩ | ⟨j, dl, h1, h2, h3, h4⟩
  · have hcond : ¬(0 ≤ (respLoopData (fun v => v) defs 0 (-1)).2 ∧
        (respLoopData (fun v => v) defs 0 (-1)).2 <
          ((respLoopData (fun v => v) defs 0 (-1)).1.length : Int) - 1) := by
      rw [h1]; omega
    have hkept : keptResponseDefs defs = (respLoopData (fun v => v) defs 0 (-1)).1 := by
      simp only [keptResponseDefs, buildResponsesFor]
      rw [if_neg hcond]
    constructor
    · intro m n dm dn hm hn hdm hdn
      rw [hkept] at hm
      exact absurd hdm (h2 m dm hm)
    · intro hex
      obtain ⟨d, hd, hdt⟩ := hex
      rw [hkept] at hd
      obtain ⟨m, hm⟩ := List.mem_iff_getElem?.1 hd
      exact absurd hdt (h2 m d hm)
  · simp only [Nat.zero_add] at h1
    have hjlen : j < (respLoopData (fun v => v) defs 0 (-1)).1.length := by
      rcases List.getElem?_eq_some_iff.1 h2 with ⟨h, -⟩
      exact h
    set r1 := (respLoopData (fun v => v) defs 0 (-1)).1 with hr1
    have hlenpos : 0 < r1.length := Nat.lt_of_le_of_lt (Nat.zero_le j) hjlen
    by_cases hcase : j < r1.length - 1
    · -- swap happens
      have hcond : 0 ≤ (respLoopData (fun v => v) defs 0 (-1)).2 ∧
          (respLoopData (fun v => v) defs 0 (-1)).2 < ((r1.length : Nat) : Int) - 1 := by
        rw [h1]
        constructor
        · exact_mod_cast Nat.zero_le j
        · omega
      obtain ⟨y, hy⟩ : ∃ y, r1[r1.length - 1]? = some y :=
        ⟨r1[r1.length - 1], List.getElem?_eq_getElem (by omega)⟩
      have hkept : keptResponseDefs defs = (r1.set j y).set (r1.length - 1) dl := by
        simp only [keptResponseDefs, buildResponsesFor]
        rw [if_pos hcond]
        simp only [listSwap, ← hr1]
        rw [h1]
        simp only [Int.toNat_ofNat]
        rw [h2, hy]
      have hylast : ¬y.tag0 = "" := h4 (r1.length - 1) y (by omega) hy
      have hklen : (keptResponseDefs defs).length = r1.length := by
        rw [hkept, List.length_set, List.length_set]
      have hlast : (keptResponseDefs defs)[r1.length - 1]? = some dl := by
        rw [hkept]
        rw [List.getElem?_set_self']
        rw [List.getElem?_eq_getElem (l := r1.set j y) (by rw [List.length_set]; omega)]
        simp
      have hentry : ∀ (m : Nat) (d : RespDef), (keptResponseDefs defs)[m]? = some d →
          d.tag0 = "" → m = r1.length - 1 := by
        intro m d hm hd
        by_contra hne
        rw [hkept] at hm
        rw [List.getElem?_set_ne (by omega)] at hm
        by_cases hmj : m = j
        · subst hmj
          rw [List.getElem?_set_self'] at hm
          rw [List.getElem?_eq_getElem hjlen] at hm
          simp only [Option.map_some, Option.some.injEq] at hm
          rw [← hm] at hd
          exact hylast hd
        · rw [List.getElem?_set_ne (by omega)] at hm
          exact h4 m d hmj hm hd
      constructor
      · intro m n dm dn hm hn hdm hdn
        rw [hentry m dm hm hdm, hentry n dn hn hdn]
      · intro _
        refine ⟨dl, ?_, h3⟩
        rw [List.getLast?_eq_getElem?, hklen]
        exact hlast
    · -- no swap: the tagless definition is already last (j = length - 1)
      have hj : j = r1.length - 1 := by omega
      have hcond : ¬(0 ≤ (respLoopData (fun v => v) defs 0 (-1)).2 ∧
          (respLoopData (fun v => v) defs 0 (-1)).2 < ((r1.length : Nat) : Int) - 1) := by
        rw [h1]
        omega
      have hkept : keptResponseDefs defs = r1 := by
        simp only [keptResponseDefs, buildResponsesFor]
        rw [if_neg hcond]
      constructor
      · intro m n dm dn hm hn hdm hdn
        rw [hkept] at hm hn
        have hmj : m = j := by
          by_contra hne
          exact h4 m dm hne hm hdm
        have hnj : n = j := by
          by_contra hne
          exact h4 n dn hne hn hdn
        rw [hmj, hnj]
      · intro _
        refine ⟨dl, ?_, h3⟩
        rw [hkept, List.getLast?_eq_getElem?, ← hj]
        exact h2

/-- C10: the `Responses` list produced by `buildResultData` is the per-
definition response construction applied to a list of kept definitions in
which at most one definition is tagless (extra tagless definitions are
skipped by the loop), and when a tagless definition is kept it sits in the
last position. -/
theorem claim_C10_single_tagless_response_last (reg : UTEnv) (env : CodegenEnv)
    (gt : GoTypeTransformFn) (svcName pkgName viewsPkg eName : String)
    (md : MethodModel) (methodResult : AttributeExpr)
    (resultMetaView : Option String) (qObj : List NamedAttribute)
    (defs : List RespDef) :
    ∃ kept : List RespDef,
      (buildResultData reg env gt svcName pkgName viewsPkg eName md methodResult
        resultMetaView qObj defs).responses =
        kept.map (fun v => (mkResponseData reg env gt svcName pkgName viewsPkg
          eName md methodResult qObj v).1) ∧
      (∀ (m n : Nat) (dm dn : RespDef), kept[m]? = some dm → kept[n]? = some dn →
        dm.tag0 = "" → dn.tag0 = "" → m = n) ∧
      ((∃ d ∈ kept, d.tag0 = "") →
        ∃ dl, kept.getLast? = some dl ∧ dl.tag0 = "") := by
  refine ⟨keptResponseDefs defs, ?_, (keptResponseDefs_spec defs).1,
    (keptResponseDefs_spec defs).2⟩
  show (buildResultData reg env gt svcName pkgName viewsPkg eName md methodResult
      resultMetaView qObj defs).responses = _
  unfold buildResultData
  simp only []
  rw [buildResponsesFor_map]

/-- Witness for C10 at a concrete response list with two tagless
definitions: the second tagless definition is dropped and the kept tagless
definition is last. -/
theorem claim_C10_single_tagless_response_last_witness :
    ∃ kept : List RespDef,
      (buildResultData [] {} (fun _ _ => .error "boom") "svc" "pkg" "views" "e"
        {} (attrOf .empty) none []
        [{ tag0 := "" }, { tag0 := "view" }, { tag0 := "" }]).responses =
        kept.map (fun v => (mkResponseData [] {} (fun _ _ => .error "boom") "svc"
          "pkg" "views" "e" {} (attrOf .empty) [] v).1) ∧
      (∀ (m n : Nat) (dm dn : RespDef), kept[m]? = some dm → kept[n]? = some dn →
        dm.tag0 = "" → dn.tag0 = "" → m = n) ∧
      ((∃ d ∈ kept, d.tag0 = "") →
        ∃ dl, kept.getLast? = some dl ∧ dl.tag0 = "") :=
  claim_C10_single_tagless_response_last [] {} (fun _ _ => .error "boom") "svc"
    "pkg" "views" "e" {} (attrOf .empty) none []
    [{ tag0 := "" }, { tag0 := "view" }, { tag0 := "" }]

/-- C7: the path constructor plan substitutes parameters positionally into
the route template — zero parameters return the template literally, an
integer parameter 42 on `/widgets/%v` yields `/widgets/42`, an array of
strings is converted element-wise by the fixed per-kind table and joined
with the separator `", "`, so `["a","b"]` on `/tags/%v` yields
`/tags/a, b`; the table formats booleans as true/false, integer kinds in
base 10 and URL-escapes strings and bytes. -/
theorem claim_C7_path_constructor_plan :
    (∀ t : String, pathInitRun t [] = t) ∧
    pathInitRun "/widgets/%v" [⟨.primitive .int, .vInt 42⟩] = "/widgets/42" ∧
    pathInitRun "/tags/%v"
      [⟨.array (attrOf (.primitive .string)), .vArr [.vStr "a", .vStr "b"]⟩] =
        "/tags/a, b" ∧
    (∀ elems : List GoVal,
      renderPathArg ⟨.array (attrOf (.primitive .string)), .vArr elems⟩ =
        String.intercalate ", " (elems.map (sliceConversion "string"))) ∧
    sliceConversion "boolean" (.vBool true) = "true" ∧
    sliceConversion "boolean" (.vBool false) = "false" ∧
    sliceConversion "int" (.vInt (-7)) = "-7" ∧
    sliceConversion "uint64" (.vUint 9) = "9" ∧
    sliceConversion "string" (.vStr "a b") = "a+b" ∧
    sliceConversion "bytes" (.vStr "c/d") = "c%2Fd" := by
  refine ⟨fun t => rfl, by decide, by decide, fun elems => rfl,
    by decide, by decide, by decide, by decide, by decide, by decide⟩

end GoaHTTP
